import Mathlib

/-!
# vgcore: the arc drawing commands (`core/src/cmdbase/mgdrawarc.cpp`)

A shallow embedding of the three interactive arc commands `MgCmdArc3P`
(three-point), `MgCmdArcCSE` (centre-start-end) and `MgCmdArcTan` (tangent),
and of the drawing attributes `GiContext` (`core/include/graph/gicontxt.h`).

* Coordinates and angles are `float` in the source.  They are embedded in an
  arbitrary linearly ordered field `R` with a floor function, i.e. in exact
  arithmetic.  The command functions are computable for every such `R`; the
  concrete evaluations, which need square roots and trigonometry, are made on
  the arc model of the spec over `ℝ`.
* The command object is embedded as a record of its members (`m_step`,
  `_points[0..2]`, the arc of `dynshape()->shape()`, `_decimal`); a member
  function is a function from the record before the call to the record after.
* `MgArc`, `Point2d::rulerPoint`, `mgHypot` and the constants `_M_R2D`,
  `_M_D2R` are declared in headers outside `src/`; they are parameters
  (`MgArcOps`, `MgGeom`).  So are the base class calls `_initialize` and
  `MgCommandDraw::draw`.
* A drawing function is embedded as the list of the calls it makes on the
  renderer `GiGraphics`, in order, together with its result.
-/

namespace VgCore

/-! ## Points and vectors -/

/-- Modelled from the spec: the 2D point value type `Point2d` (declared in
`mgpnt.h`, not under src), a pair of coordinates. `Point2d()` is the origin and
`==` is equality of both coordinates. -/
structure Point2d (R : Type) where
  x : R
  y : R
deriving DecidableEq

/-- Modelled from the spec: the 2D vector value type `Vector2d` (declared in
`mgvec.h`, not under src), a pair of components. -/
structure Vector2d (R : Type) where
  x : R
  y : R
deriving DecidableEq

/-- Modelled from the spec: `Point2d::operator-(const Point2d&)`, the vector
from the second point to the first. -/
instance instHSubPoint2d {R : Type} [Sub R] : HSub (Point2d R) (Point2d R) (Vector2d R) where
  hSub a b := ⟨a.x - b.x, a.y - b.y⟩

/-- Modelled from the spec: `Point2d::operator+(const Vector2d&)` and
`operator+=`, the point offset by a vector. -/
instance instHAddPoint2d {R : Type} [Add R] : HAdd (Point2d R) (Vector2d R) (Point2d R) where
  hAdd a v := ⟨a.x + v.x, a.y + v.y⟩

/-- Modelled from the spec: the default constructor `Point2d()`, the origin. -/
def Point2d.origin {R : Type} [Zero R] : Point2d R := ⟨0, 0⟩

/-! ## The parts of the tool kit that are declared outside `src/` -/

/-- The geometry helpers the commands call and whose code is not under src:
`mgHypot` (the length of a vector given by its components), the method
`Point2d::rulerPoint(dir, xoff, yoff)` (first argument: the receiver) and the
conversion constants `_M_R2D`, `_M_D2R`. -/
structure MgGeom (R : Type) where
  hypot : R → R → R
  rulerPoint : Point2d R → Point2d R → R → R → Point2d R
  M_R2D : R
  M_D2R : R

/-- The methods of the arc shape `MgArc` that the commands call; the class is
declared in `mgbasicsps.h`, not under src. Every setter maps the arc before
the call (first argument) and the call's arguments to the arc after it.
`setCenterStartEnd2` is the two-argument call `setCenterStartEnd(center, start)`
and `setCenterStartEnd3` the three-argument call. -/
structure MgArcOps (R : Type) (Arc : Type) where
  getCenter : Arc → Point2d R
  getRadius : Arc → R
  getStartAngle : Arc → R
  getSweepAngle : Arc → R
  getEndPoint : Arc → Point2d R
  setStartMidEnd : Arc → Point2d R → Point2d R → Point2d R → Arc
  setCenterStartEnd2 : Arc → Point2d R → Point2d R → Arc
  setCenterStartEnd3 : Arc → Point2d R → Point2d R → Point2d R → Arc
  setCenterRadius : Arc → Point2d R → R → R → R → Arc
  setTanStartEnd : Arc → Vector2d R → Point2d R → Point2d R → Arc
  offset : Arc → Vector2d R → Int → Arc

/-- Modelled from the spec: `Point2d::distanceTo` (declared in `mgpnt.h`, not
under src), the distance between two points: the length `mgHypot` of the
vector of coordinate differences. -/
def Point2d.distanceTo {R : Type} [Sub R] (G : MgGeom R) (a b : Point2d R) : R :=
  G.hypot (a.x - b.x) (a.y - b.y)

/-- Modelled from the spec: `mgbase::roundReal(value, decimal)` (declared in
`mgbase.h`, not under src), `value` rounded to `decimal` decimal places, a
half rounding up: `floor(value * 10^decimal + 0.5) / 10^decimal`. -/
def roundReal {R : Type} [LinearOrderedField R] [FloorRing R] (value : R) (decimal : Int) : R :=
  (⌊value * (10 : R) ^ decimal + 1 / 2⌋ : R) / (10 : R) ^ decimal

/-! ## The command objects -/

/-- The members of `MgCmdArc3P` that `mgdrawarc.cpp` reads and writes: the step
counter `m_step`, the captured points `_points[0]`, `_points[1]`, `_points[2]`
and the arc `dynshape()->shape()`. `MgCmdArcTan` has the same members. -/
structure MgCmdArc3P (R : Type) (Arc : Type) where
  m_step : Int
  points0 : Point2d R
  points1 : Point2d R
  points2 : Point2d R
  arc : Arc

/-- The command `MgCmdArcCSE`, a subclass of `MgCmdArc3P` with the rounding
option `_decimal`. -/
structure MgCmdArcCSE (R : Type) (Arc : Type) extends MgCmdArc3P R Arc where
  decimal : Int

/-- `MgCmdArc3P::setStepPoint(sender, step, pt)`, lines 41-57. -/
def MgCmdArc3P.setStepPoint {R Arc : Type} (A : MgArcOps R Arc) (c : MgCmdArc3P R Arc)
    (step : Int) (pt : Point2d R) : MgCmdArc3P R Arc :=
  if step = 0 then
    { c with points0 := pt }
  else if step = 1 then
    let c1 := { c with points1 := pt }
    let c2 := { c1 with points2 := pt }
    { c2 with arc := A.setStartMidEnd c2.arc c2.points0 pt pt }
  else if step = 2 then
    let c1 := { c with points2 := pt }
    { c1 with arc := A.setStartMidEnd c1.arc c1.points0 c1.points1 pt }
  else
    c

/-- `MgCmdArcCSE::click(sender)`, lines 98-108; `pt` is the value of
`snapPoint(sender)`. The three assignments are made in the order of the
source; the result is the returned flag and the command after the call. -/
def MgCmdArcCSE.click {R Arc : Type} [Add R] [Sub R] (c : MgCmdArcCSE R Arc) (pt : Point2d R) :
    Bool × MgCmdArcCSE R Arc :=
  let c1 := { c with points1 := c.points1 + (pt - c.points0) }
  let c2 := { c1 with points2 := c1.points2 + (pt - c1.points0) }
  let c3 := { c2 with points0 := pt }
  (true, c3)

/-- `MgCmdArcCSE::setStepPoint(sender, step, pt)`, lines 110-139. -/
def MgCmdArcCSE.setStepPoint {R Arc : Type} [LinearOrderedField R] [FloorRing R] (G : MgGeom R)
    (A : MgArcOps R Arc) (c : MgCmdArcCSE R Arc) (step : Int) (pt : Point2d R) :
    MgCmdArcCSE R Arc :=
  if step = 0 then
    if c.points1 = c.points2 then
      let c1 := { c with points0 := pt }
      { c1 with arc := A.offset c1.arc (pt - A.getCenter c1.arc) (-1) }
    else
      let r := c.points0.distanceTo G c.points2
      let c1 := { c with points1 := G.rulerPoint c.points0 pt r 0 }
      let c2 := if c1.points1 = c1.points2 then
          { c1 with points2 := G.rulerPoint c1.points0 pt (-r) 0 }
        else c1
      let c3 := { c2 with arc := A.setCenterStartEnd2 c2.arc c2.points0 c2.points1 }
      { c3 with m_step := 2 }
  else if step = 1 then
    let c1 := { c with points1 := pt }
    let c2 := { c1 with points2 := pt }
    { c2 with arc := A.setCenterStartEnd2 c2.arc c2.points0 c2.points1 }
  else if step = 2 then
    let a1 := A.setCenterStartEnd3 c.arc c.points0 c.points1 pt
    let angle := roundReal (A.getSweepAngle a1 * G.M_R2D) c.decimal * G.M_D2R
    let a2 := A.setCenterRadius a1 (A.getCenter a1) (A.getRadius a1) (A.getStartAngle a1) angle
    { c with arc := a2, points2 := A.getEndPoint a2 }
  else
    c

/-- `MgCmdArcTan::setStepPoint(sender, step, pt)`, lines 141-157. -/
def MgCmdArcTan.setStepPoint {R Arc : Type} [Sub R] (A : MgArcOps R Arc)
    (c : MgCmdArc3P R Arc) (step : Int) (pt : Point2d R) : MgCmdArc3P R Arc :=
  if step = 0 then
    { c with points0 := pt }
  else if step = 1 then
    let c1 := { c with points1 := pt }
    let c2 := { c1 with points2 := pt }
    { c2 with arc := A.setTanStartEnd c2.arc (c2.points1 - c2.points0) pt pt }
  else if step = 2 then
    let c1 := { c with arc := A.setTanStartEnd c.arc (c.points1 - c.points0) c.points1 pt }
    { c1 with points2 := pt }
  else
    c

/-- `MgCmdArc3P::initialize(sender, s)`, lines 13-18. `baseInitialize` is the
call `_initialize(MgArc::Type(), sender, s)` of the base class `MgCommandDraw`,
whose code is not under src: it acts on the members of the base class (the step
counter and the shape) and returns a flag; the captured points are members of
`MgCmdArc3P` and out of its reach. The loop over `i = 0, 1, 2` is unrolled. -/
def MgCmdArc3P.initialize {R Arc : Type} [Zero R] (baseInitialize : Int → Arc → Bool × Int × Arc)
    (c : MgCmdArc3P R Arc) : Bool × MgCmdArc3P R Arc :=
  let c1 := { c with points0 := Point2d.origin }
  let c2 := { c1 with points1 := Point2d.origin }
  let c3 := { c2 with points2 := Point2d.origin }
  let r := baseInitialize c3.m_step c3.arc
  (r.1, { c3 with m_step := r.2.1, arc := r.2.2 })

/-- `MgCmdArcCSE::initialize(sender, s)`, lines 59-65. The storage pointer `s`
is `none` when null and otherwise the storage's `readInt(name, defaultValue)`. -/
def MgCmdArcCSE.initialize {R Arc : Type} [Zero R]
    (baseInitialize : Int → Arc → Bool × Int × Arc) (c : MgCmdArcCSE R Arc)
    (s : Option (String → Int → Int)) : Bool × MgCmdArcCSE R Arc :=
  let c1 := match s with
    | some readInt => { c with decimal := readInt "decimal" c.decimal }
    | none => c
  let r := MgCmdArc3P.initialize baseInitialize c1.toMgCmdArc3P
  (r.1, { c1 with toMgCmdArc3P := r.2 })

/-! ## The drawing attributes `GiContext` (`core/include/graph/gicontxt.h`) -/

/-- Modelled from the spec: the colour value type `GiColor` (declared in
`gicolor.h`, not under src), the red, green, blue and alpha components
(`unsigned char`), constructed in the order `GiColor(r, g, b, a)`; `==` compares
the four components. -/
structure GiColor where
  r : Nat
  g : Nat
  b : Nat
  a : Nat
deriving DecidableEq

/-- Modelled from the spec: `GiColor::Invalid()` (not under src), the colour
that stands for "do not draw": all four components 0. -/
def GiColor.Invalid : GiColor := ⟨0, 0, 0, 0⟩

/-- Modelled from the spec: `GiColor::isInvalid()` (not under src): all four
components are 0. -/
def GiColor.isInvalid (c : GiColor) : Bool :=
  decide (c.a = 0) && decide (c.b = 0) && decide (c.g = 0) && decide (c.r = 0)

/-- Modelled from the spec: `GiColor::Black()` (not under src), opaque black. -/
def GiColor.Black : GiColor := ⟨0, 0, 0, 255⟩

/-- Modelled from the spec: `GiColor::Red()` (not under src), opaque red. -/
def GiColor.Red : GiColor := ⟨255, 0, 0, 255⟩

/-- Modelled from the spec: the three-argument `GiColor::set(r, g, b)` (not
under src), which writes the red, green and blue components and keeps alpha. -/
def GiColor.set (c : GiColor) (r g b : Nat) : GiColor :=
  { c with r := r, g := g, b := b }

/-- The C library function `fmodf` in exact arithmetic: `x - n * y` where `n` is
the quotient `x / y` truncated towards zero. -/
def fmodf {R : Type} [LinearOrderedField R] [FloorRing R] (x y : R) : R :=
  x - (if 0 ≤ x / y then (⌊x / y⌋ : R) else (⌈x / y⌉ : R)) * y

/-- The members of `GiContext`, lines 316-321. -/
structure GiContext (R : Type) where
  m_lineStyle : Int
  m_lineWidth : R
  m_lineColor : GiColor
  m_fillColor : GiColor
  m_autoScale : Bool

/-- The enumerator `GiContext::kSolidLine`. -/
def GiContext.kSolidLine : Int := 0

/-- The enumerator `GiContext::kDashLine`. -/
def GiContext.kDashLine : Int := 1

/-- The enumerator `GiContext::kDotLine`. -/
def GiContext.kDotLine : Int := 2

/-- The enumerator `GiContext::kNullLine`. -/
def GiContext.kNullLine : Int := 5

/-- The enumerator `GiContext::kCopyNone`. -/
def GiContext.kCopyNone : Int := 0

/-- The enumerator `GiContext::kLineRGB`. -/
def GiContext.kLineRGB : Int := 0x01

/-- The enumerator `GiContext::kLineAlpha`. -/
def GiContext.kLineAlpha : Int := 0x02

/-- The enumerator `GiContext::kLineWidth`. -/
def GiContext.kLineWidth : Int := 0x04

/-- The enumerator `GiContext::kLineStyle`. -/
def GiContext.kLineStyle : Int := 0x08

/-- The enumerator `GiContext::kFillRGB`. -/
def GiContext.kFillRGB : Int := 0x10

/-- The enumerator `GiContext::kFillAlpha`. -/
def GiContext.kFillAlpha : Int := 0x20

/-- The enumerator `GiContext::kCopyAll`. -/
def GiContext.kCopyAll : Int := 0xFF

/-- The default constructor `GiContext()`, lines 43-46. -/
def GiContext.ctor {R : Type} [LinearOrderedField R] : GiContext R :=
  { m_lineStyle := GiContext.kSolidLine, m_lineWidth := -2, m_lineColor := ⟨0, 0, 0, 168⟩,
    m_fillColor := GiColor.Invalid, m_autoScale := false }

/-- The constructor `GiContext(width, color, style, fillcr, autoScale)`, lines
56-61; the defaults of the source are `color = GiColor::Black()`,
`style = kSolidLine`, `fillcr = GiColor::Invalid()`, `autoScale = false`. -/
def GiContext.ctorLine {R : Type} (width : R) (color : GiColor) (style : Int) (fillcr : GiColor)
    (autoScale : Bool) : GiContext R :=
  { m_lineStyle := style, m_lineWidth := width, m_lineColor := color, m_fillColor := fillcr,
    m_autoScale := autoScale }

/-- `GiContext::copy(src, mask)`, lines 74-101. `srcIsThis` is the outcome of the
test `this == &src`; `mask & k` is the bitwise and of two's complement
integers. -/
def GiContext.copy {R : Type} (self : GiContext R) (srcIsThis : Bool) (src : GiContext R)
    (mask : Int) : GiContext R :=
  if srcIsThis then self
  else
    let c1 := if Int.land mask GiContext.kLineRGB ≠ 0 then
        { self with m_lineColor := (GiColor.set self.m_lineColor src.m_lineColor.r
            src.m_lineColor.g src.m_lineColor.b) }
      else self
    let c2 := if Int.land mask GiContext.kLineAlpha ≠ 0 then
        { c1 with m_lineColor := { c1.m_lineColor with a := src.m_lineColor.a } }
      else c1
    let c3 := if Int.land mask GiContext.kLineWidth ≠ 0 then
        { c2 with m_lineWidth := src.m_lineWidth, m_autoScale := src.m_autoScale }
      else c2
    let c4 := if Int.land mask GiContext.kLineStyle ≠ 0 then
        { c3 with m_lineStyle := src.m_lineStyle }
      else c3
    let c5 := if Int.land mask GiContext.kFillRGB ≠ 0 then
        { c4 with m_fillColor := (GiColor.set c4.m_fillColor src.m_fillColor.r
            src.m_fillColor.g src.m_fillColor.b) }
      else c4
    if Int.land mask GiContext.kFillAlpha ≠ 0 then
      { c5 with m_fillColor := { c5.m_fillColor with a := src.m_fillColor.a } }
    else c5

/-- A `float` value that may be NaN: a number or NaN. -/
inductive FloatValue (R : Type) where
  | nan
  | num (x : R)

/-- The comparison `==` of two `float` values: false when either of them is
NaN, and otherwise equality of the numbers. -/
instance instBEqFloatValue {R : Type} [DecidableEq R] : BEq (FloatValue R) where
  beq a b :=
    match a, b with
    | .num x, .num y => decide (x = y)
    | _, _ => false

/-- `GiContext::equals(src)`, lines 104-111. The line widths are compared with
the `==` of the type of the widths, which for a `float` that is NaN is false
even against itself (`FloatValue`). -/
def GiContext.equals {R : Type} [BEq R] (self src : GiContext R) : Bool :=
  decide (self.m_lineStyle = src.m_lineStyle)
    && (self.m_lineWidth == src.m_lineWidth)
    && decide (self.m_autoScale = src.m_autoScale)
    && decide (self.m_lineColor = src.m_lineColor)
    && decide (self.m_fillColor = src.m_fillColor)

/-- `GiContext::operator=(src)`, lines 115-118: `copy(src)` with the default
mask `-1`. -/
def GiContext.assign {R : Type} (self : GiContext R) (srcIsThis : Bool) (src : GiContext R) :
    GiContext R :=
  self.copy srcIsThis src (-1)

/-- `GiContext::getLineStyle()`, lines 134-137. -/
def GiContext.getLineStyle {R : Type} (self : GiContext R) : Int :=
  if self.m_lineColor.isInvalid then GiContext.kNullLine else self.m_lineStyle

/-- `GiContext::getLineWidth()`, lines 148-151. -/
def GiContext.getLineWidth {R : Type} [LinearOrderedField R] [FloorRing R] (self : GiContext R) :
    R :=
  if self.m_lineWidth > 0 then fmodf self.m_lineWidth 100000
  else -fmodf (-self.m_lineWidth) 100000

/-- `GiContext::getExtraWidth()`, lines 154-161. The thresholds are the `float`
constant expressions `1e5f - 1e-7f` and `-1e5f + 1e-7f`, whose values in single
precision are exactly `1e5f` and `-1e5f` (`1e-7` is far below half the spacing
of the floats at `1e5`). -/
def GiContext.getExtraWidth {R : Type} [LinearOrderedField R] (self : GiContext R) : R :=
  if self.m_lineWidth > 100000 then self.m_lineWidth / 100000
  else if self.m_lineWidth < -100000 then self.m_lineWidth / (-100000)
  else 0

/-- `GiContext::setExtraWidth(pixels)`, lines 181-185. -/
def GiContext.setExtraWidth {R : Type} [LinearOrderedField R] [FloorRing R] (self : GiContext R)
    (pixels : R) : GiContext R :=
  let pixels1 : R := (⌊|pixels|⌋ : R) * (if self.m_lineWidth > 0 then 100000 else -100000)
  { self with m_lineWidth := self.getLineWidth + pixels1 }

/-- `GiContext::getLineColor()`, lines 202-205. -/
def GiContext.getLineColor {R : Type} (self : GiContext R) : GiColor :=
  self.m_lineColor

/-- `GiContext::hasFillColor()`, lines 251-254. -/
def GiContext.hasFillColor {R : Type} (self : GiContext R) : Bool :=
  !self.m_fillColor.isInvalid

/-! ## The preview drawing -/

/-- Modelled from the spec: the rectangle `Box2d` (declared in `mgbox.h`, not
under src) that `getWndRectM()` returns, by its four bounds. -/
structure Box2d (R : Type) where
  xmin : R
  ymin : R
  xmax : R
  ymax : R

/-- What the commands read from the motion `sender` (`MgMotion` and the view it
points to, not under src): the pointer position `pointM` in model coordinates,
`dragging()`, the converter `displayMmToModel`, the visible window
`view->xform()->getWndRectM()`, the value of `getSnappedType(sender)` and the
localized strings `MgLocalized::getString(view, name)`. -/
structure MgMotion (R : Type) where
  pointM : Point2d R
  dragging : Bool
  displayMmToModel : R → R
  wndRectM : Box2d R
  snappedType : Int
  getString : String → String

/-- The handle kinds that `mgdrawarc.cpp` passes to `drawHandle`. -/
inductive GiHandleTypes where
  | kGiHandleHotVertex
  | kGiHandleCenter
deriving DecidableEq

/-- The text of the angle readout as the string stream receives it: the number
and the unit string that follows it. -/
structure AngleText (R : Type) where
  value : R
  unit : String

/-- One call on the renderer `GiGraphics` (not under src) with its arguments.
The colour of `drawTextAt` stands for its ARGB value. -/
inductive GiCall (R : Type) where
  | drawLine (ctx : GiContext R) (a b : Point2d R)
  | drawCircle (ctx : GiContext R) (center : Point2d R) (radius : R)
  | drawHandle (pt : Point2d R) (kind : GiHandleTypes)
  | drawTextAt (color : GiColor) (text : AngleText R) (pt : Point2d R) (h : R)

/-- A call that draws a circle with a context whose line style is `kDashLine`. -/
def GiCall.isDashCircle {R : Type} : GiCall R → Bool
  | .drawCircle ctx _ _ => decide (ctx.getLineStyle = GiContext.kDashLine)
  | _ => false

/-- The element `_points[i]` of the captured points. -/
def MgCmdArc3P.points {R Arc : Type} (c : MgCmdArc3P R Arc) (i : Int) : Point2d R :=
  if i = 0 then c.points0 else if i = 1 then c.points1 else c.points2

/-- `MgCmdArc3P::drawArcHandle(sender, gs)`, lines 20-26: the calls made on the
renderer. -/
def MgCmdArc3P.drawArcHandle {R Arc : Type} (c : MgCmdArc3P R Arc) (sender : MgMotion R) :
    List (GiCall R) :=
  if 0 < c.m_step ∧ c.m_step < 3 ∧ sender.dragging = true ∧ sender.snappedType = 0 then
    [GiCall.drawHandle (c.points c.m_step) GiHandleTypes.kGiHandleHotVertex]
  else []

/-- `MgCmdArc3P::draw(sender, gs)`, lines 28-39: the calls made on the renderer
and the returned flag. `base` is the outcome of `MgCommandDraw::draw(sender, gs)`
of the base class (not under src): the calls it makes and the flag it returns. -/
def MgCmdArc3P.draw {R Arc : Type} [LinearOrderedField R] (A : MgArcOps R Arc)
    (c : MgCmdArc3P R Arc) (sender : MgMotion R) (base : List (GiCall R) × Bool) :
    List (GiCall R) × Bool :=
  let handle := c.drawArcHandle sender
  let own :=
    if 0 < c.m_step then
      let ctx : GiContext R :=
        GiContext.ctorLine (-2) ⟨0, 126, 0, 32⟩ GiContext.kDotLine GiColor.Invalid false
      [GiCall.drawLine ctx c.points0 c.points1,
        GiCall.drawCircle ctx (A.getCenter c.arc) (A.getRadius c.arc)]
    else []
  (handle ++ own ++ base.1, base.2)

/-- `MgCommand::drawAngleText(sender, gs, angle, stdstr)`, lines 67-79: the
returned value, the text and the calls made on the renderer. `gs` is `none`
for a null renderer and otherwise the value its `drawTextAt` returns;
`mgbase::rad2Deg` (not under src) is the product with `_M_R2D`. -/
def MgCommand.drawAngleText {R : Type} [LinearOrderedField R] [FloorRing R] (G : MgGeom R)
    (sender : MgMotion R) (gs : Option R) (angle : R) : R × AngleText R × List (GiCall R) :=
  let pt0 : Point2d R := sender.pointM + (⟨0, sender.displayMmToModel 12⟩ : Vector2d R)
  let pt : Point2d R := { pt0 with y := min pt0.y sender.wndRectM.ymax }
  let ss : AngleText R := ⟨roundReal (angle * G.M_R2D) 2, sender.getString "degrees"⟩
  match gs with
  | some ret => (ret, ss, [GiCall.drawTextAt GiColor.Red ss pt (7 / 2)])
  | none => (0, ss, [])

/-- `MgCmdArcCSE::draw(sender, gs)`, lines 81-96: the calls made on the renderer
and the returned flag. `textRet` is the value the renderer's `drawTextAt`
returns and `base` the outcome of `MgCommandDraw::draw`. -/
def MgCmdArcCSE.draw {R Arc : Type} [LinearOrderedField R] [FloorRing R] (G : MgGeom R)
    (A : MgArcOps R Arc) (c : MgCmdArcCSE R Arc) (sender : MgMotion R) (textRet : R)
    (base : List (GiCall R) × Bool) : List (GiCall R) × Bool :=
  let part1 :=
    if c.m_step = 2 ∧ sender.dragging = true then
      let ctx : GiContext R :=
        GiContext.ctorLine 0 ⟨0, 126, 0, 64⟩ GiContext.kDotLine GiColor.Invalid false
      GiCall.drawLine ctx c.points0 c.points2
        :: (MgCommand.drawAngleText G sender (some textRet) |A.getSweepAngle c.arc|).2.2
    else []
  let part2 :=
    if c.points0 ≠ c.points1 then
      GiCall.drawHandle c.points0 GiHandleTypes.kGiHandleCenter
        :: (if c.m_step = 0 then
              let ctx : GiContext R :=
                GiContext.ctorLine (-2) ⟨0, 126, 0, 32⟩ GiContext.kDashLine GiColor.Invalid false
              [GiCall.drawCircle ctx c.points0 (c.points0.distanceTo G c.points1)]
            else [])
    else []
  let r := MgCmdArc3P.draw A c.toMgCmdArc3P sender base
  (part1 ++ part2 ++ r.1, r.2)

/-! ## Sequences of calls -/

/-- One call on a command object among the operations of `mgdrawarc.cpp` that
write the command: `setStepPoint` of one of the three commands, called with the
current step counter as `step` (as the dragging handler does), or the click of
the centre-start-end command at a snapped point. -/
inductive ArcCall (R : Type) where
  | setStepPoint3P (pt : Point2d R)
  | setStepPointCSE (pt : Point2d R)
  | setStepPointTan (pt : Point2d R)
  | clickCSE (pt : Point2d R)

/-- The command after one call; the three-point and tangent variants act on
the members inherited from `MgCmdArc3P`. -/
def ArcCall.run {R Arc : Type} [LinearOrderedField R] [FloorRing R] (G : MgGeom R)
    (A : MgArcOps R Arc) (c : MgCmdArcCSE R Arc) : ArcCall R → MgCmdArcCSE R Arc
  | .setStepPoint3P pt =>
      { c with toMgCmdArc3P := MgCmdArc3P.setStepPoint A c.toMgCmdArc3P c.m_step pt }
  | .setStepPointCSE pt => MgCmdArcCSE.setStepPoint G A c c.m_step pt
  | .setStepPointTan pt =>
      { c with toMgCmdArc3P := MgCmdArcTan.setStepPoint A c.toMgCmdArc3P c.m_step pt }
  | .clickCSE pt => (MgCmdArcCSE.click c pt).2

/-- The command after a sequence of calls, made from left to right. -/
def runCalls {R Arc : Type} [LinearOrderedField R] [FloorRing R] (G : MgGeom R)
    (A : MgArcOps R Arc) (c : MgCmdArcCSE R Arc) (calls : List (ArcCall R)) : MgCmdArcCSE R Arc :=
  calls.foldl (ArcCall.run G A) c

/-- The tangent command after the step-2 updates `setStepPoint(2, q)` for the
points `q` of the list, from left to right. -/
def tanStep2Updates {R Arc : Type} [Sub R] (A : MgArcOps R Arc) (c : MgCmdArc3P R Arc)
    (qs : List (Point2d R)) : MgCmdArc3P R Arc :=
  qs.foldl (fun st q => MgCmdArcTan.setStepPoint A st 2 q) c

/-! ## Contracts of the parts declared outside `src/`

The properties of `MgArc` and of the constants that the theorems below take as
hypotheses, each one named. -/

/-- The setters `setStartMidEnd` and `setTanStartEnd` are functions of their
arguments: the arc they produce does not depend on the arc before the call. -/
def MgArcOps.SettersOfArgs {R Arc : Type} (A : MgArcOps R Arc) : Prop :=
  (∀ (a b : Arc) (s m e : Point2d R), A.setStartMidEnd a s m e = A.setStartMidEnd b s m e)
    ∧ (∀ (a b : Arc) (t : Vector2d R) (s e : Point2d R),
        A.setTanStartEnd a t s e = A.setTanStartEnd b t s e)

/-- After `setCenterRadius(center, radius, startAngle, sweepAngle)` the four
getters return the four arguments. -/
def MgArcOps.CenterRadiusStored {R Arc : Type} (A : MgArcOps R Arc) : Prop :=
  ∀ (a : Arc) (c : Point2d R) (r sa sw : R),
    A.getCenter (A.setCenterRadius a c r sa sw) = c
      ∧ A.getRadius (A.setCenterRadius a c r sa sw) = r
      ∧ A.getStartAngle (A.setCenterRadius a c r sa sw) = sa
      ∧ A.getSweepAngle (A.setCenterRadius a c r sa sw) = sw

/-- The setters `setCenterStartEnd` (two and three arguments) are functions of
their arguments: the arc they produce does not depend on the arc before the
call. -/
def MgArcOps.CenterSettersOfArgs {R Arc : Type} (A : MgArcOps R Arc) : Prop :=
  (∀ (a b : Arc) (c s : Point2d R), A.setCenterStartEnd2 a c s = A.setCenterStartEnd2 b c s)
    ∧ (∀ (a b : Arc) (c s e : Point2d R),
        A.setCenterStartEnd3 a c s e = A.setCenterStartEnd3 b c s e)

/-- The method `offset(vec, segment)` translates the arc: the centre moves by
`vec`, and an offset by the zero vector leaves the arc as it was. -/
def MgArcOps.OffsetTranslates {R Arc : Type} [Add R] [Zero R] (A : MgArcOps R Arc) : Prop :=
  (∀ (a : Arc) (v : Vector2d R) (k : Int), A.getCenter (A.offset a v k) = A.getCenter a + v)
    ∧ (∀ (a : Arc) (k : Int), A.offset a ⟨0, 0⟩ k = a)

/-- The length `mgHypot` is non-negative and zero only for the zero vector; the
ruler-point with angle offset 0 lies at the distance `|d|` from its anchor, and
the ruler-points at the distances `d` and `-d` differ when `d ≠ 0`. -/
def MgGeom.RulerLaws {R : Type} [LinearOrderedField R] (G : MgGeom R) : Prop :=
  (∀ x y : R, 0 ≤ G.hypot x y)
    ∧ (∀ x y : R, G.hypot x y = 0 → x = 0 ∧ y = 0)
    ∧ (∀ (p dir : Point2d R) (d : R), p.distanceTo G (G.rulerPoint p dir d 0) = |d|)
    ∧ (∀ (p dir : Point2d R) (d : R), d ≠ 0 → G.rulerPoint p dir (-d) 0 ≠ G.rulerPoint p dir d 0)

/-- After the two-argument call `setCenterStartEnd(center, start)` the arc has
the centre `center`, the sweep angle 0 and its end point is `start`. -/
def MgArcOps.CenterStartZeroSweep {R Arc : Type} [Zero R] (A : MgArcOps R Arc) : Prop :=
  ∀ (a : Arc) (c s : Point2d R),
    A.getCenter (A.setCenterStartEnd2 a c s) = c
      ∧ A.getSweepAngle (A.setCenterStartEnd2 a c s) = 0
      ∧ A.getEndPoint (A.setCenterStartEnd2 a c s) = s

/-- The method `offset(vec, segment)` keeps the radius, the start angle and the
sweep angle of the arc. -/
def MgArcOps.OffsetKeepsShape {R Arc : Type} (A : MgArcOps R Arc) : Prop :=
  ∀ (a : Arc) (v : Vector2d R) (k : Int),
    A.getRadius (A.offset a v k) = A.getRadius a
      ∧ A.getStartAngle (A.offset a v k) = A.getStartAngle a
      ∧ A.getSweepAngle (A.offset a v k) = A.getSweepAngle a

/-- Modelled from the spec: the Arc Model (`MgArc`, not under src), a circular
arc given by centre, radius, start angle and signed sweep angle (radians);
start and end point are derived. -/
structure ArcModel (R : Type) where
  center : Point2d R
  radius : R
  startAngle : R
  sweepAngle : R

noncomputable section RealInstance

/-- Modelled from the spec: the direction angle of a vector (`Vector2d::angle2`,
not under src), `atan2(y, x)` in `(-π, π]`. -/
def angle2 (v : Vector2d ℝ) : ℝ := Complex.arg ⟨v.x, v.y⟩

/-- Modelled from the spec: an angle brought into `[0, 2π)` (`mgbase::to0_2PI`,
not under src). -/
def to0_2PI (a : ℝ) : ℝ := a - 2 * Real.pi * (⌊a / (2 * Real.pi)⌋ : ℝ)

/-- Modelled from the spec: the geometry helpers over `ℝ` (not under src).
`hypot` is the Euclidean length; the ruler-point is the point at the given
distance from the anchor along the direction towards `dir` turned by the given
angle offset; `_M_R2D = 180/π`, `_M_D2R = π/180`. -/
def realGeom : MgGeom ℝ where
  hypot x y := Real.sqrt (x * x + y * y)
  rulerPoint p dir dist ang :=
    ⟨p.x + dist * Real.cos (angle2 (dir - p) + ang), p.y + dist * Real.sin (angle2 (dir - p) + ang)⟩
  M_R2D := 180 / Real.pi
  M_D2R := Real.pi / 180

/-- Modelled from the spec: the arc through `s`, `m`, `e` (circumscribed
circle; radius 0 and sweep 0 when the points are collinear), swept from `s` to
`e` on the side of `m`. -/
def arcStartMidEnd (s m e : Point2d ℝ) : ArcModel ℝ :=
  let d := 2 * (s.x * (m.y - e.y) + m.x * (e.y - s.y) + e.x * (s.y - m.y))
  if d = 0 then ⟨s, 0, 0, 0⟩
  else
    let ss := s.x * s.x + s.y * s.y
    let mm := m.x * m.x + m.y * m.y
    let ee := e.x * e.x + e.y * e.y
    let c : Point2d ℝ := ⟨(ss * (m.y - e.y) + mm * (e.y - s.y) + ee * (s.y - m.y)) / d,
      (ss * (e.x - m.x) + mm * (s.x - e.x) + ee * (m.x - s.x)) / d⟩
    let sa := angle2 (s - c)
    let toMid := to0_2PI (angle2 (m - c) - sa)
    let toEnd := to0_2PI (angle2 (e - c) - sa)
    ⟨c, c.distanceTo realGeom s, sa, if toMid ≤ toEnd then toEnd else toEnd - 2 * Real.pi⟩

/-- Modelled from the spec: the arc from `s` to `e` that leaves `s` in the
direction `t` (radius 0 and sweep 0 when `e` lies on the tangent line). -/
def arcTanStartEnd (t : Vector2d ℝ) (s e : Point2d ℝ) : ArcModel ℝ :=
  let n : Vector2d ℝ := ⟨-t.y, t.x⟩
  let chord := e - s
  let dot := n.x * chord.x + n.y * chord.y
  if dot = 0 then ⟨s, 0, 0, 0⟩
  else
    let k := (chord.x * chord.x + chord.y * chord.y) / (2 * dot)
    let c : Point2d ℝ := ⟨s.x + k * n.x, s.y + k * n.y⟩
    let sa := angle2 (s - c)
    let toEnd := to0_2PI (angle2 (e - c) - sa)
    ⟨c, c.distanceTo realGeom s, sa, if 0 < k then toEnd else toEnd - 2 * Real.pi⟩

/-- Modelled from the spec: the methods of `MgArc` on the arc model. The end
point is derived from centre, radius and the angle `startAngle + sweepAngle`;
`setCenterStartEnd` takes the radius `|center - start|`, the start angle of
`start - center` and (three arguments) the sweep from start to end in
`[0, 2π)`, (two arguments) the sweep 0; `offset` translates the centre. -/
def realArc : MgArcOps ℝ (ArcModel ℝ) where
  getCenter a := a.center
  getRadius a := a.radius
  getStartAngle a := a.startAngle
  getSweepAngle a := a.sweepAngle
  getEndPoint a :=
    ⟨a.center.x + a.radius * Real.cos (a.startAngle + a.sweepAngle),
      a.center.y + a.radius * Real.sin (a.startAngle + a.sweepAngle)⟩
  setStartMidEnd _ s m e := arcStartMidEnd s m e
  setCenterStartEnd2 _ c s := ⟨c, c.distanceTo realGeom s, angle2 (s - c), 0⟩
  setCenterStartEnd3 _ c s e :=
    ⟨c, c.distanceTo realGeom s, angle2 (s - c), to0_2PI (angle2 (e - c) - angle2 (s - c))⟩
  setCenterRadius _ c r sa sw := ⟨c, r, sa, sw⟩
  setTanStartEnd _ t s e := arcTanStartEnd t s e
  offset a v _ := { a with center := a.center + v }

/-- The end point of the end-to-end scenario of the spec (centre `(0,0)`, start
`(10,0)`, raw sweep 89.996 degrees): the point at distance 10 from the origin at
the angle 89.996 degrees. -/
def scenarioEnd : Point2d ℝ :=
  ⟨10 * Real.cos (89.996 * (Real.pi / 180)), 10 * Real.sin (89.996 * (Real.pi / 180))⟩

/-- The centre-start-end command of the end-to-end scenario of the spec before
the end point is fed: precision 2, centre `(0,0)`, start `(10,0)`, the arc set
from centre and start with sweep 0, step counter 2. -/
def scenarioCmd : MgCmdArcCSE ℝ (ArcModel ℝ) :=
  { m_step := 2, points0 := ⟨0, 0⟩, points1 := ⟨10, 0⟩, points2 := ⟨10, 0⟩,
    arc := ⟨⟨0, 0⟩, 10, 0, 0⟩, decimal := 2 }

end RealInstance

/-! ## Theorems -/

theorem Point2d.sub_def {R : Type} [Sub R] (a b : Point2d R) :
    a - b = (⟨a.x - b.x, a.y - b.y⟩ : Vector2d R) := rfl

theorem Point2d.add_def {R : Type} [Add R] (a : Point2d R) (v : Vector2d R) :
    a + v = (⟨a.x + v.x, a.y + v.y⟩ : Point2d R) := rfl

/-- One call made with the current step counter as step keeps `m_step ≤ 3` and
does not lower it. -/
theorem ArcCall.run_step {R Arc : Type} [LinearOrderedField R] [FloorRing R]
    (G : MgGeom R) (A : MgArcOps R Arc) (c : MgCmdArcCSE R Arc) (call : ArcCall R)
    (h : c.m_step ≤ 3) :
    (ArcCall.run G A c call).m_step ≤ 3 ∧ c.m_step ≤ (ArcCall.run G A c call).m_step := by
  cases call with
  | setStepPoint3P pt =>
    have e : (ArcCall.run G A c (ArcCall.setStepPoint3P pt)).m_step = c.m_step := by
      simp only [ArcCall.run, MgCmdArc3P.setStepPoint]
      split_ifs <;> rfl
    rw [e]; exact ⟨h, le_refl _⟩
  | setStepPointTan pt =>
    have e : (ArcCall.run G A c (ArcCall.setStepPointTan pt)).m_step = c.m_step := by
      simp only [ArcCall.run, MgCmdArcTan.setStepPoint]
      split_ifs <;> rfl
    rw [e]; exact ⟨h, le_refl _⟩
  | clickCSE pt => exact ⟨h, le_refl _⟩
  | setStepPointCSE pt =>
    simp only [ArcCall.run, MgCmdArcCSE.setStepPoint]
    by_cases h0 : c.m_step = 0
    · by_cases h12 : c.points1 = c.points2
      · simp only [h0, h12, if_true]
        exact ⟨by norm_num, le_refl _⟩
      · simp only [h0, h12, if_true, if_false]
        exact ⟨by norm_num, by norm_num⟩
    · simp only [h0, if_false]
      split_ifs <;> exact ⟨h, le_refl _⟩

/-- A sequence of calls keeps `m_step ≤ 3` and does not lower it. -/
theorem runCalls_step {R Arc : Type} [LinearOrderedField R] [FloorRing R]
    (G : MgGeom R) (A : MgArcOps R Arc) (calls : List (ArcCall R)) :
    ∀ c : MgCmdArcCSE R Arc, c.m_step ≤ 3 →
      (runCalls G A c calls).m_step ≤ 3 ∧ c.m_step ≤ (runCalls G A c calls).m_step := by
  induction calls with
  | nil => intro c h; exact ⟨h, le_refl _⟩
  | cons call rest ih =>
    intro c h
    have h1 := ArcCall.run_step G A c call h
    have h2 := ih (ArcCall.run G A c call) h1.1
    exact ⟨h2.1, le_trans h1.2 h2.2⟩

theorem runCalls_append {R Arc : Type} [LinearOrderedField R] [FloorRing R]
    (G : MgGeom R) (A : MgArcOps R Arc) (c : MgCmdArcCSE R Arc) (pre post : List (ArcCall R)) :
    runCalls G A c (pre ++ post) = runCalls G A (runCalls G A c pre) post := by
  simp [runCalls, List.foldl_append]

/-- The setters of the arc model over `ℝ` are functions of their arguments. -/
theorem realArc_settersOfArgs : realArc.SettersOfArgs :=
  ⟨fun _ _ _ _ _ => rfl, fun _ _ _ _ _ => rfl⟩

/-- Step-2 updates of the tangent command keep slots 0 and 1 and `m_step`. -/
theorem tanStep2Updates_frame {R Arc : Type} [Sub R] (A : MgArcOps R Arc)
    (qs : List (Point2d R)) :
    ∀ c : MgCmdArc3P R Arc, (tanStep2Updates A c qs).points0 = c.points0
      ∧ (tanStep2Updates A c qs).points1 = c.points1
      ∧ (tanStep2Updates A c qs).m_step = c.m_step := by
  induction qs with
  | nil => intro c; exact ⟨rfl, rfl, rfl⟩
  | cons q rest ih =>
    intro c
    have h := ih (MgCmdArcTan.setStepPoint A c 2 q)
    exact h

theorem tanStep2Updates_append {R Arc : Type} [Sub R] (A : MgArcOps R Arc)
    (c : MgCmdArc3P R Arc) (qs : List (Point2d R)) (q : Point2d R) :
    tanStep2Updates A c (qs ++ [q])
      = MgCmdArcTan.setStepPoint A (tanStep2Updates A c qs) 2 q := by
  simp [tanStep2Updates, List.foldl_append]

/-- The arc model over `ℝ` stores the arguments of `setCenterRadius`. -/
theorem realArc_centerRadiusStored : realArc.CenterRadiusStored :=
  fun _ _ _ _ _ => ⟨rfl, rfl, rfl, rfl⟩

/-- The direction angle of a vector along the positive x axis is 0. -/
theorem angle2_pos_x_axis (x : ℝ) (hx : 0 ≤ x) : angle2 ⟨x, 0⟩ = 0 := by
  have e : (⟨x, 0⟩ : ℂ) = ((x : ℝ) : ℂ) := by
    apply Complex.ext <;> simp
  unfold angle2
  rw [e]
  exact Complex.arg_ofReal_of_nonneg hx

/-- The direction angle of the vector of length `r > 0` at the angle `θ` in
`(-π, π]` is `θ`. -/
theorem angle2_polar (r θ : ℝ) (hr : 0 < r) (hθ : θ ∈ Set.Ioc (-Real.pi) Real.pi) :
    angle2 ⟨r * Real.cos θ, r * Real.sin θ⟩ = θ := by
  have e : (⟨r * Real.cos θ, r * Real.sin θ⟩ : ℂ)
      = (r : ℂ) * (Complex.cos θ + Complex.sin θ * Complex.I) := by
    apply Complex.ext
    · simp [← Complex.ofReal_cos, ← Complex.ofReal_sin]
    · simp [← Complex.ofReal_cos, ← Complex.ofReal_sin]
  unfold angle2
  rw [e]
  exact Complex.arg_mul_cos_add_sin_mul_I hr hθ

/-- An angle in `[0, 2π)` is left as it is. -/
theorem to0_2PI_of_mem (a : ℝ) (h0 : 0 ≤ a) (h1 : a < 2 * Real.pi) : to0_2PI a = a := by
  have hpi : 0 < 2 * Real.pi := by positivity
  have hf : ⌊a / (2 * Real.pi)⌋ = 0 := by
    rw [Int.floor_eq_zero_iff]
    exact ⟨div_nonneg h0 hpi.le, (div_lt_one hpi).mpr h1⟩
  unfold to0_2PI
  rw [hf]
  simp

/-- The value 89.996 rounded to 2 decimal places is 90. -/
theorem roundReal_example : roundReal (89.996 : ℝ) 2 = 90 := by
  have hf : ⌊(89.996 : ℝ) * (10 : ℝ) ^ (2 : Int) + 1 / 2⌋ = 9000 := by
    rw [Int.floor_eq_iff]
    constructor <;> norm_num
  unfold roundReal
  rw [hf]
  norm_num

/-- In the scenario the raw sweep of `setCenterStartEnd(centre, start, end)` is
89.996 degrees, in radians. -/
theorem scenario_raw_sweep (a : ArcModel ℝ) :
    realArc.getSweepAngle (realArc.setCenterStartEnd3 a ⟨0, 0⟩ ⟨10, 0⟩ scenarioEnd)
      = 89.996 * (Real.pi / 180) := by
  have hpi := Real.pi_pos
  have hs : angle2 ((⟨10, 0⟩ : Point2d ℝ) - (⟨0, 0⟩ : Point2d ℝ)) = 0 := by
    rw [Point2d.sub_def]
    simp only [sub_zero]
    exact angle2_pos_x_axis 10 (by norm_num)
  have he : angle2 (scenarioEnd - (⟨0, 0⟩ : Point2d ℝ)) = 89.996 * (Real.pi / 180) := by
    rw [Point2d.sub_def]
    simp only [scenarioEnd, sub_zero]
    apply angle2_polar 10 _ (by norm_num)
    constructor
    · nlinarith
    · nlinarith
  show to0_2PI (angle2 (scenarioEnd - (⟨0, 0⟩ : Point2d ℝ))
      - angle2 ((⟨10, 0⟩ : Point2d ℝ) - (⟨0, 0⟩ : Point2d ℝ))) = _
  rw [hs, he, sub_zero]
  apply to0_2PI_of_mem
  · positivity
  · nlinarith

/-- Centre-start-end, step 0 with slot 1 = slot 2: the re-centre branch. -/
theorem MgCmdArcCSE.setStepPoint_recentre {R Arc : Type} [LinearOrderedField R] [FloorRing R]
    (G : MgGeom R) (A : MgArcOps R Arc) (c : MgCmdArcCSE R Arc) (pt : Point2d R)
    (h12 : c.points1 = c.points2) :
    MgCmdArcCSE.setStepPoint G A c 0 pt
      = { c with points0 := pt, arc := A.offset c.arc (pt - A.getCenter c.arc) (-1) } := by
  simp [MgCmdArcCSE.setStepPoint, h12]

/-- Centre-start-end, step 0 with slot 1 ≠ slot 2, when the new start falls on
the old end: the end is replaced by the opposite ruler-point. -/
theorem MgCmdArcCSE.setStepPoint_start_nudged {R Arc : Type} [LinearOrderedField R]
    [FloorRing R] (G : MgGeom R) (A : MgArcOps R Arc) (c : MgCmdArcCSE R Arc) (pt : Point2d R)
    (h12 : c.points1 ≠ c.points2)
    (hq : G.rulerPoint c.points0 pt (c.points0.distanceTo G c.points2) 0 = c.points2) :
    MgCmdArcCSE.setStepPoint G A c 0 pt
      = { c with
          m_step := 2
          points1 := G.rulerPoint c.points0 pt (c.points0.distanceTo G c.points2) 0
          points2 := G.rulerPoint c.points0 pt (-(c.points0.distanceTo G c.points2)) 0
          arc := A.setCenterStartEnd2 c.arc c.points0
            (G.rulerPoint c.points0 pt (c.points0.distanceTo G c.points2) 0) } := by
  simp [MgCmdArcCSE.setStepPoint, h12, hq]

/-- Centre-start-end, step 0 with slot 1 ≠ slot 2, when the new start differs
from the old end: the end is kept. -/
theorem MgCmdArcCSE.setStepPoint_start_kept {R Arc : Type} [LinearOrderedField R]
    [FloorRing R] (G : MgGeom R) (A : MgArcOps R Arc) (c : MgCmdArcCSE R Arc) (pt : Point2d R)
    (h12 : c.points1 ≠ c.points2)
    (hq : G.rulerPoint c.points0 pt (c.points0.distanceTo G c.points2) 0 ≠ c.points2) :
    MgCmdArcCSE.setStepPoint G A c 0 pt
      = { c with
          m_step := 2
          points1 := G.rulerPoint c.points0 pt (c.points0.distanceTo G c.points2) 0
          arc := A.setCenterStartEnd2 c.arc c.points0
            (G.rulerPoint c.points0 pt (c.points0.distanceTo G c.points2) 0) } := by
  simp [MgCmdArcCSE.setStepPoint, h12, hq]

/-- The `setCenterStartEnd` setters of the arc model over `ℝ` are functions of
their arguments. -/
theorem realArc_centerSettersOfArgs : realArc.CenterSettersOfArgs :=
  ⟨fun _ _ _ _ => rfl, fun _ _ _ _ _ => rfl⟩

/-- The `offset` of the arc model over `ℝ` translates the arc. -/
theorem realArc_offsetTranslates : realArc.OffsetTranslates := by
  refine ⟨fun _ _ _ => rfl, fun a k => ?_⟩
  show ({ a with center := a.center + (⟨0, 0⟩ : Vector2d ℝ) } : ArcModel ℝ) = a
  rw [Point2d.add_def]
  simp

/-- Over `ℝ` the length is a norm and the ruler-points lie on the circle. -/
theorem realGeom_rulerLaws : realGeom.RulerLaws := by
  refine ⟨fun x y => Real.sqrt_nonneg _, fun x y h => ?_, fun p dir d => ?_, fun p dir d hd h => ?_⟩
  · have h1 : x * x + y * y ≤ 0 := Real.sqrt_eq_zero'.mp h
    constructor <;> nlinarith [mul_self_nonneg x, mul_self_nonneg y]
  · simp only [Point2d.distanceTo, realGeom, add_zero]
    have e : (p.x - (p.x + d * Real.cos (angle2 (dir - p))))
          * (p.x - (p.x + d * Real.cos (angle2 (dir - p))))
        + (p.y - (p.y + d * Real.sin (angle2 (dir - p))))
          * (p.y - (p.y + d * Real.sin (angle2 (dir - p)))) = d ^ 2 := by
      have hcs := Real.cos_sq_add_sin_sq (angle2 (dir - p))
      linear_combination d ^ 2 * hcs
    rw [e]
    exact Real.sqrt_sq_eq_abs d
  · simp only [realGeom, add_zero, Point2d.mk.injEq] at h
    have hcs := Real.cos_sq_add_sin_sq (angle2 (dir - p))
    have hx : d * Real.cos (angle2 (dir - p)) = 0 := by linarith [h.1]
    have hy : d * Real.sin (angle2 (dir - p)) = 0 := by linarith [h.2]
    have hd2 : d ^ 2 = 0 := by
      have : d ^ 2 = (d * Real.cos (angle2 (dir - p))) ^ 2
          + (d * Real.sin (angle2 (dir - p))) ^ 2 := by
        linear_combination (-(d ^ 2)) * hcs
      rw [this, hx, hy]
      norm_num
    exact hd (pow_eq_zero_iff (by norm_num) |>.mp hd2)

/-- The distance of the geometry over `ℝ` is the modulus of the difference as a
complex number. -/
theorem realGeom_distanceTo_eq_abs (c s : Point2d ℝ) :
    c.distanceTo realGeom s = Complex.abs ⟨s.x - c.x, s.y - c.y⟩ := by
  simp only [Point2d.distanceTo, realGeom, Complex.abs_apply, Complex.normSq_apply]
  congr 1
  ring

/-- On the arc model over `ℝ` the two-argument `setCenterStartEnd` gives the
centre, sweep 0 and the end point equal to the start. -/
theorem realArc_centerStartZeroSweep : realArc.CenterStartZeroSweep := by
  intro a c s
  refine ⟨rfl, rfl, ?_⟩
  show (⟨c.x + c.distanceTo realGeom s * Real.cos (angle2 (s - c) + 0),
      c.y + c.distanceTo realGeom s * Real.sin (angle2 (s - c) + 0)⟩ : Point2d ℝ) = s
  rw [realGeom_distanceTo_eq_abs, Point2d.sub_def, add_zero]
  unfold angle2
  by_cases hz : (⟨s.x - c.x, s.y - c.y⟩ : ℂ) = 0
  · have hx : s.x - c.x = 0 := by simpa using congrArg Complex.re hz
    have hy : s.y - c.y = 0 := by simpa using congrArg Complex.im hz
    rw [hz]
    cases s
    simp only [map_zero, zero_mul, add_zero, Point2d.mk.injEq] at *
    constructor <;> linarith
  · have habs : Complex.abs ⟨s.x - c.x, s.y - c.y⟩ ≠ 0 := by
      simpa using hz
    rw [Complex.cos_arg hz, Complex.sin_arg, mul_div_cancel₀ _ habs, mul_div_cancel₀ _ habs]
    cases s
    simp

/-- On the arc model over `ℝ`, `offset` keeps radius, start angle and sweep. -/
theorem realArc_offsetKeepsShape : realArc.OffsetKeepsShape :=
  fun _ _ _ => ⟨rfl, rfl, rfl⟩

/-- The default mask `-1` has each of the six attribute bits set. -/
theorem land_neg_one_bits :
    Int.land (-1) GiContext.kLineRGB ≠ 0 ∧ Int.land (-1) GiContext.kLineAlpha ≠ 0
      ∧ Int.land (-1) GiContext.kLineWidth ≠ 0 ∧ Int.land (-1) GiContext.kLineStyle ≠ 0
      ∧ Int.land (-1) GiContext.kFillRGB ≠ 0 ∧ Int.land (-1) GiContext.kFillAlpha ≠ 0 := by
  refine ⟨?_, ?_, ?_, ?_, ?_, ?_⟩
  · show Int.land (Int.negSucc 0) (Int.ofNat 1) ≠ 0
    simp [Int.land, Nat.ldiff]
  · show Int.land (Int.negSucc 0) (Int.ofNat 2) ≠ 0
    simp [Int.land, Nat.ldiff]
  · show Int.land (Int.negSucc 0) (Int.ofNat 4) ≠ 0
    simp [Int.land, Nat.ldiff]
  · show Int.land (Int.negSucc 0) (Int.ofNat 8) ≠ 0
    simp [Int.land, Nat.ldiff]
  · show Int.land (Int.negSucc 0) (Int.ofNat 16) ≠ 0
    simp [Int.land, Nat.ldiff]
  · show Int.land (Int.negSucc 0) (Int.ofNat 32) ≠ 0
    simp [Int.land, Nat.ldiff]

/-- Copying every attribute from a distinct source gives the source. -/
theorem GiContext.copy_all {R : Type} (dst src : GiContext R) : dst.copy false src (-1) = src := by
  obtain ⟨h1, h2, h3, h4, h5, h6⟩ := land_neg_one_bits
  simp only [GiContext.copy, Bool.false_eq_true, if_false, if_pos h1, if_pos h2, if_pos h3,
    if_pos h4, if_pos h5, if_pos h6, GiColor.set]

/-- The result of `copy` from a distinct source, attribute by attribute. -/
theorem GiContext.copy_eq {R : Type} (dst src : GiContext R) (mask : Int) :
    dst.copy false src mask
      = { m_lineStyle :=
            if Int.land mask GiContext.kLineStyle ≠ 0 then src.m_lineStyle else dst.m_lineStyle
          m_lineWidth :=
            if Int.land mask GiContext.kLineWidth ≠ 0 then src.m_lineWidth else dst.m_lineWidth
          m_lineColor :=
            { r := if Int.land mask GiContext.kLineRGB ≠ 0 then src.m_lineColor.r
                else dst.m_lineColor.r
              g := if Int.land mask GiContext.kLineRGB ≠ 0 then src.m_lineColor.g
                else dst.m_lineColor.g
              b := if Int.land mask GiContext.kLineRGB ≠ 0 then src.m_lineColor.b
                else dst.m_lineColor.b
              a := if Int.land mask GiContext.kLineAlpha ≠ 0 then src.m_lineColor.a
                else dst.m_lineColor.a }
          m_fillColor :=
            { r := if Int.land mask GiContext.kFillRGB ≠ 0 then src.m_fillColor.r
                else dst.m_fillColor.r
              g := if Int.land mask GiContext.kFillRGB ≠ 0 then src.m_fillColor.g
                else dst.m_fillColor.g
              b := if Int.land mask GiContext.kFillRGB ≠ 0 then src.m_fillColor.b
                else dst.m_fillColor.b
              a := if Int.land mask GiContext.kFillAlpha ≠ 0 then src.m_fillColor.a
                else dst.m_fillColor.a }
          m_autoScale :=
            if Int.land mask GiContext.kLineWidth ≠ 0 then src.m_autoScale else dst.m_autoScale } := by
  by_cases h1 : Int.land mask GiContext.kLineRGB = 0 <;>
  by_cases h2 : Int.land mask GiContext.kLineAlpha = 0 <;>
  by_cases h3 : Int.land mask GiContext.kLineWidth = 0 <;>
  by_cases h4 : Int.land mask GiContext.kLineStyle = 0 <;>
  by_cases h5 : Int.land mask GiContext.kFillRGB = 0 <;>
  by_cases h6 : Int.land mask GiContext.kFillAlpha = 0 <;>
  simp [GiContext.copy, GiColor.set, h1, h2, h3, h4, h5, h6]

/-- A context `equals` itself exactly when its line width compares equal to
itself. -/
theorem GiContext.equals_self {R : Type} [BEq R] (c : GiContext R) :
    c.equals c = (c.m_lineWidth == c.m_lineWidth) := by
  simp [GiContext.equals]

/-- The quotient `2 / 100000` truncates to 0. -/
theorem floor_two_div {R : Type} [LinearOrderedField R] [FloorRing R] :
    ⌊(2 / 100000 : R)⌋ = 0 := by
  rw [Int.floor_eq_zero_iff]
  constructor <;> norm_num

/-- The line width of the default-constructed context is `-2`. -/
theorem GiContext.ctor_getLineWidth {R : Type} [LinearOrderedField R] [FloorRing R] :
    (GiContext.ctor : GiContext R).getLineWidth = -2 := by
  have h0 : ¬ ((-2 : R) > 0) := by norm_num
  have h1 : (0 : R) ≤ 2 / 100000 := by norm_num
  simp only [GiContext.getLineWidth, GiContext.ctor, h0, if_false, neg_neg, fmodf, h1, if_true,
    floor_two_div]
  norm_num

/-- The floor of `|2|` is 2. -/
theorem floor_abs_two {R : Type} [LinearOrderedField R] [FloorRing R] : ⌊|(2 : R)|⌋ = 2 := by
  rw [Int.floor_eq_iff]
  constructor <;> norm_num

/-- C1: for every state and every snapped point `s`, `MgCmdArcCSE::click`
leaves the slots as `p0' = s`, `p1' = p1 + (s - p0)`, `p2' = p2 + (s - p0)`,
where `p0` is the centre slot before the call. -/
theorem click_slots {R Arc : Type} [Add R] [Sub R] (c : MgCmdArcCSE R Arc) (s : Point2d R) :
    (MgCmdArcCSE.click c s).2.points0 = s
      ∧ (MgCmdArcCSE.click c s).2.points1 = c.points1 + (s - c.points0)
      ∧ (MgCmdArcCSE.click c s).2.points2 = c.points2 + (s - c.points0) :=
  ⟨rfl, rfl, rfl⟩

/-- C2: `MgCmdArcCSE::click` is a rigid translation of the captured points: for
every state (in particular every state with start ≠ end) and every snapped
point, the distances centre-start, centre-end and start-end after the click
equal those before it; so the radius `|newCentre - newStart|` is unchanged. -/
theorem click_rigid {R Arc : Type} [LinearOrderedField R] (G : MgGeom R) (c : MgCmdArcCSE R Arc)
    (s : Point2d R) :
    (MgCmdArcCSE.click c s).2.points0.distanceTo G (MgCmdArcCSE.click c s).2.points1
        = c.points0.distanceTo G c.points1
      ∧ (MgCmdArcCSE.click c s).2.points0.distanceTo G (MgCmdArcCSE.click c s).2.points2
        = c.points0.distanceTo G c.points2
      ∧ (MgCmdArcCSE.click c s).2.points1.distanceTo G (MgCmdArcCSE.click c s).2.points2
        = c.points1.distanceTo G c.points2 := by
  refine ⟨?_, ?_, ?_⟩ <;>
    simp only [MgCmdArcCSE.click, Point2d.distanceTo, Point2d.sub_def, Point2d.add_def] <;>
    congr 1 <;> ring

/-- C3 (counterexample): in the centre-start-end command, with slot 1 ≠ slot 2
and the step counter 0, `setStepPoint(0, (0,1))` changes the step counter (to
2). -/
theorem setStepPoint_step_changed :
    (MgCmdArcCSE.setStepPoint realGeom realArc
        ⟨⟨0, ⟨0, 0⟩, ⟨1, 0⟩, ⟨2, 0⟩, ⟨⟨0, 0⟩, 0, 0, 0⟩⟩, 2⟩ 0 ⟨0, 1⟩).m_step
      ≠ (⟨⟨0, ⟨0, 0⟩, ⟨1, 0⟩, ⟨2, 0⟩, ⟨⟨0, 0⟩, 0, 0, 0⟩⟩, 2⟩ : MgCmdArcCSE ℝ (ArcModel ℝ)).m_step := by
  simp [MgCmdArcCSE.setStepPoint]

/-- C3 (amended): for every state, step argument and point, `setStepPoint` of
the three-point and of the tangent command leaves `m_step` as it was; the
centre-start-end `setStepPoint` leaves it as it was except when it is called
with step 0 while slot 1 ≠ slot 2 (the start-direction branch), where it sets
`m_step` to 2. -/
theorem setStepPoint_step_counter {R Arc : Type} [LinearOrderedField R] [FloorRing R]
    (G : MgGeom R) (A : MgArcOps R Arc) (b : MgCmdArc3P R Arc) (c : MgCmdArcCSE R Arc)
    (step : Int) (pt : Point2d R) :
    (MgCmdArc3P.setStepPoint A b step pt).m_step = b.m_step
      ∧ (MgCmdArcTan.setStepPoint A b step pt).m_step = b.m_step
      ∧ (MgCmdArcCSE.setStepPoint G A c step pt).m_step
          = if step = 0 ∧ c.points1 ≠ c.points2 then 2 else c.m_step := by
  refine ⟨?_, ?_, ?_⟩
  · unfold MgCmdArc3P.setStepPoint
    split_ifs <;> rfl
  · unfold MgCmdArcTan.setStepPoint
    split_ifs <;> rfl
  · unfold MgCmdArcCSE.setStepPoint
    by_cases h0 : step = 0
    · by_cases h12 : c.points1 = c.points2
      · simp [h0, h12]
      · simp only [h0, h12, if_true, if_false, ne_eq, not_false_eq_true, and_self]
    · simp only [h0, if_false, false_and]
      split_ifs <;> rfl

/-- C4: starting from any state with `m_step ≤ 3` (in particular `0 ≤ m_step ≤ 3`),
after any sequence of `setStepPoint` calls of the three variants, each called
with the current `m_step` as step, and of centre-start-end clicks, `m_step` is
still `≤ 3`, and it is not smaller than it was before any call of the sequence
(`pre` is the part of the sequence made before that call). -/
theorem step_counter_invariant {R Arc : Type} [LinearOrderedField R] [FloorRing R]
    (G : MgGeom R) (A : MgArcOps R Arc) (c : MgCmdArcCSE R Arc) (pre post : List (ArcCall R))
    (h : c.m_step ≤ 3) :
    (runCalls G A c (pre ++ post)).m_step ≤ 3
      ∧ (runCalls G A c pre).m_step ≤ (runCalls G A c (pre ++ post)).m_step := by
  have hpre := runCalls_step G A pre c h
  have hpost := runCalls_step G A post (runCalls G A c pre) hpre.1
  rw [runCalls_append]
  exact ⟨hpost.1, hpost.2⟩

/-- C4 (witness): the invariant at a concrete state and sequence of calls. -/
theorem step_counter_invariant_witness :
    (0 : Int) ≤ 3
      ∧ (runCalls realGeom realArc ⟨⟨0, ⟨0, 0⟩, ⟨1, 0⟩, ⟨2, 0⟩, ⟨⟨0, 0⟩, 0, 0, 0⟩⟩, 2⟩
            ([ArcCall.clickCSE ⟨3, 4⟩, ArcCall.setStepPointCSE ⟨0, 1⟩]
              ++ [ArcCall.setStepPointCSE ⟨1, 1⟩, ArcCall.setStepPoint3P ⟨5, 5⟩,
                  ArcCall.setStepPointTan ⟨2, 7⟩])).m_step ≤ 3
      ∧ (runCalls realGeom realArc ⟨⟨0, ⟨0, 0⟩, ⟨1, 0⟩, ⟨2, 0⟩, ⟨⟨0, 0⟩, 0, 0, 0⟩⟩, 2⟩
            [ArcCall.clickCSE ⟨3, 4⟩, ArcCall.setStepPointCSE ⟨0, 1⟩]).m_step
          ≤ (runCalls realGeom realArc ⟨⟨0, ⟨0, 0⟩, ⟨1, 0⟩, ⟨2, 0⟩, ⟨⟨0, 0⟩, 0, 0, 0⟩⟩, 2⟩
            ([ArcCall.clickCSE ⟨3, 4⟩, ArcCall.setStepPointCSE ⟨0, 1⟩]
              ++ [ArcCall.setStepPointCSE ⟨1, 1⟩, ArcCall.setStepPoint3P ⟨5, 5⟩,
                  ArcCall.setStepPointTan ⟨2, 7⟩])).m_step :=
  ⟨by norm_num, step_counter_invariant realGeom realArc _ _ _ (by norm_num)⟩

/-- C5: when the arc setters `setStartMidEnd` and `setTanStartEnd` are
functions of their arguments, `setStepPoint` of the three-point command and of
the tangent command is idempotent: for every state, every step (in particular
0, 1, 2) and every point, two calls in succession leave the same captured
points, step counter and arc as one call. -/
theorem setStepPoint_idempotent {R Arc : Type} [Sub R] (A : MgArcOps R Arc)
    (hA : A.SettersOfArgs) (c : MgCmdArc3P R Arc) (step : Int) (pt : Point2d R) :
    MgCmdArc3P.setStepPoint A (MgCmdArc3P.setStepPoint A c step pt) step pt
        = MgCmdArc3P.setStepPoint A c step pt
      ∧ MgCmdArcTan.setStepPoint A (MgCmdArcTan.setStepPoint A c step pt) step pt
        = MgCmdArcTan.setStepPoint A c step pt := by
  constructor
  · unfold MgCmdArc3P.setStepPoint
    split_ifs
    · rfl
    · simp only [MgCmdArc3P.mk.injEq, true_and]
      exact hA.1 _ _ _ _ _
    · simp only [MgCmdArc3P.mk.injEq, true_and]
      exact hA.1 _ _ _ _ _
    · rfl
  · unfold MgCmdArcTan.setStepPoint
    split_ifs
    · rfl
    · simp only [MgCmdArc3P.mk.injEq, true_and]
      exact hA.2 _ _ _ _ _
    · simp only [MgCmdArc3P.mk.injEq, true_and]
      exact hA.2 _ _ _ _ _
    · rfl

/-- C5 (witness): idempotence at step 2 on the arc model over `ℝ`. -/
theorem setStepPoint_idempotent_witness :
    realArc.SettersOfArgs
      ∧ MgCmdArc3P.setStepPoint realArc
            (MgCmdArc3P.setStepPoint realArc ⟨2, ⟨0, 0⟩, ⟨1, 1⟩, ⟨1, 1⟩, ⟨⟨0, 0⟩, 0, 0, 0⟩⟩ 2 ⟨2, 0⟩)
            2 ⟨2, 0⟩
          = MgCmdArc3P.setStepPoint realArc ⟨2, ⟨0, 0⟩, ⟨1, 1⟩, ⟨1, 1⟩, ⟨⟨0, 0⟩, 0, 0, 0⟩⟩ 2 ⟨2, 0⟩
      ∧ MgCmdArcTan.setStepPoint realArc
            (MgCmdArcTan.setStepPoint realArc ⟨2, ⟨0, 0⟩, ⟨1, 1⟩, ⟨1, 1⟩, ⟨⟨0, 0⟩, 0, 0, 0⟩⟩ 2 ⟨2, 0⟩)
            2 ⟨2, 0⟩
          = MgCmdArcTan.setStepPoint realArc ⟨2, ⟨0, 0⟩, ⟨1, 1⟩, ⟨1, 1⟩, ⟨⟨0, 0⟩, 0, 0, 0⟩⟩ 2 ⟨2, 0⟩ :=
  ⟨realArc_settersOfArgs, setStepPoint_idempotent realArc realArc_settersOfArgs _ 2 _⟩

/-- C6: the centre-start-end `setStepPoint` at the state with slot 0 = slot 2 =
`(0,0)`, slot 1 = `(1,0)`, called with step 0 and the point `(5,0)`. The radius
is 0, so the start falls on the end and the replacement of the end by the
opposite ruler-point (line 122, "keep different") gives the same point again:
after one call slot 1 and slot 2 are equal. A second call therefore takes the
re-centre branch and moves slot 0 from `(0,0)` to `(5,0)`: the captured points
after two calls are not those after one call. -/
theorem setStepPointCSE_not_idempotent :
    (MgCmdArcCSE.setStepPoint realGeom realArc
        ⟨⟨0, ⟨0, 0⟩, ⟨1, 0⟩, ⟨0, 0⟩, ⟨⟨0, 0⟩, 0, 0, 0⟩⟩, 2⟩ 0 ⟨5, 0⟩).points1
      = (MgCmdArcCSE.setStepPoint realGeom realArc
        ⟨⟨0, ⟨0, 0⟩, ⟨1, 0⟩, ⟨0, 0⟩, ⟨⟨0, 0⟩, 0, 0, 0⟩⟩, 2⟩ 0 ⟨5, 0⟩).points2
      ∧ (MgCmdArcCSE.setStepPoint realGeom realArc
        ⟨⟨0, ⟨0, 0⟩, ⟨1, 0⟩, ⟨0, 0⟩, ⟨⟨0, 0⟩, 0, 0, 0⟩⟩, 2⟩ 0 ⟨5, 0⟩).points0 = ⟨0, 0⟩
      ∧ (MgCmdArcCSE.setStepPoint realGeom realArc
        (MgCmdArcCSE.setStepPoint realGeom realArc
          ⟨⟨0, ⟨0, 0⟩, ⟨1, 0⟩, ⟨0, 0⟩, ⟨⟨0, 0⟩, 0, 0, 0⟩⟩, 2⟩ 0 ⟨5, 0⟩) 0 ⟨5, 0⟩).points0 = ⟨5, 0⟩
      ∧ (MgCmdArcCSE.setStepPoint realGeom realArc
        (MgCmdArcCSE.setStepPoint realGeom realArc
          ⟨⟨0, ⟨0, 0⟩, ⟨1, 0⟩, ⟨0, 0⟩, ⟨⟨0, 0⟩, 0, 0, 0⟩⟩, 2⟩ 0 ⟨5, 0⟩) 0 ⟨5, 0⟩).points0
        ≠ (MgCmdArcCSE.setStepPoint realGeom realArc
          ⟨⟨0, ⟨0, 0⟩, ⟨1, 0⟩, ⟨0, 0⟩, ⟨⟨0, 0⟩, 0, 0, 0⟩⟩, 2⟩ 0 ⟨5, 0⟩).points0 := by
  refine ⟨?_, ?_, ?_, ?_⟩ <;>
    simp [MgCmdArcCSE.setStepPoint, Point2d.distanceTo, realGeom]

/-- Outside the radius-0 states of the start-direction branch the
centre-start-end `setStepPoint` is idempotent: when the setters
`setCenterStartEnd` are functions of their arguments, `offset` translates the
arc and ruler-points lie at the given distance, then for every step, every point
and every state other than those with step 0, slot 1 ≠ slot 2 and slot 0 =
slot 2, two calls in succession leave the same command (captured points, arc,
step counter) as one call. -/
theorem setStepPointCSE_idempotent {R Arc : Type} [LinearOrderedField R] [FloorRing R]
    (G : MgGeom R) (A : MgArcOps R Arc) (hG : G.RulerLaws) (hS : A.CenterSettersOfArgs)
    (hO : A.OffsetTranslates) (c : MgCmdArcCSE R Arc) (step : Int) (pt : Point2d R)
    (hnd : ¬ (step = 0 ∧ c.points1 ≠ c.points2 ∧ c.points0 = c.points2)) :
    MgCmdArcCSE.setStepPoint G A (MgCmdArcCSE.setStepPoint G A c step pt) step pt
      = MgCmdArcCSE.setStepPoint G A c step pt := by
  by_cases h0 : step = 0
  · subst h0
    by_cases h12 : c.points1 = c.points2
    · have hc : A.getCenter (A.offset c.arc (pt - A.getCenter c.arc) (-1)) = pt := by
        rw [hO.1, Point2d.sub_def, Point2d.add_def]
        cases pt
        simp
      have hz : pt - pt = (⟨0, 0⟩ : Vector2d R) := by
        rw [Point2d.sub_def]
        simp
      rw [MgCmdArcCSE.setStepPoint_recentre G A c pt h12]
      rw [MgCmdArcCSE.setStepPoint_recentre]
      · simp [hc, hz, hO.2]
      · exact h12
    · have h02 : c.points0 ≠ c.points2 := fun h => hnd ⟨rfl, h12, h⟩
      have hr0 : 0 ≤ c.points0.distanceTo G c.points2 := hG.1 _ _
      have hrne : c.points0.distanceTo G c.points2 ≠ 0 := by
        intro h
        obtain ⟨hx, hy⟩ := hG.2.1 _ _ h
        apply h02
        cases hp0 : c.points0
        cases hp2 : c.points2
        rw [hp0, hp2] at hx hy
        simp only [Point2d.mk.injEq]
        exact ⟨sub_eq_zero.mp hx, sub_eq_zero.mp hy⟩
      by_cases hq : G.rulerPoint c.points0 pt (c.points0.distanceTo G c.points2) 0 = c.points2
      · have hne := hG.2.2.2 c.points0 pt _ hrne
        have hd : c.points0.distanceTo G
            (G.rulerPoint c.points0 pt (-(c.points0.distanceTo G c.points2)) 0)
            = c.points0.distanceTo G c.points2 := by
          rw [hG.2.2.1, abs_neg, abs_of_nonneg hr0]
        rw [MgCmdArcCSE.setStepPoint_start_nudged G A c pt h12 hq]
        rw [MgCmdArcCSE.setStepPoint_start_kept]
        · simp only [hd, MgCmdArcCSE.mk.injEq, MgCmdArc3P.mk.injEq, true_and, and_true]
          exact hS.1 _ _ _ _
        · exact Ne.symm hne
        · simp only [hd]
          exact Ne.symm hne
      · rw [MgCmdArcCSE.setStepPoint_start_kept G A c pt h12 hq]
        rw [MgCmdArcCSE.setStepPoint_start_kept]
        · simp only [MgCmdArcCSE.mk.injEq, MgCmdArc3P.mk.injEq, true_and, and_true]
          exact hS.1 _ _ _ _
        · exact hq
        · exact hq
  · by_cases h1 : step = 1
    · subst h1
      simp only [MgCmdArcCSE.setStepPoint]
      norm_num
      exact hS.1 _ _ _ _
    · by_cases h2 : step = 2
      · subst h2
        simp only [MgCmdArcCSE.setStepPoint]
        norm_num
        rw [hS.2 _ c.arc]
        simp
      · simp [MgCmdArcCSE.setStepPoint, h0, h1, h2]

/-- Idempotence in the start-direction branch at a state with slot 0 ≠ slot 2,
on the arc model over `ℝ`. -/
theorem setStepPointCSE_idempotent_witness :
    realGeom.RulerLaws ∧ realArc.CenterSettersOfArgs ∧ realArc.OffsetTranslates
      ∧ ¬ ((0 : Int) = 0 ∧ (⟨1, 0⟩ : Point2d ℝ) ≠ ⟨0, 2⟩ ∧ (⟨0, 0⟩ : Point2d ℝ) = ⟨0, 2⟩)
      ∧ MgCmdArcCSE.setStepPoint realGeom realArc
            (MgCmdArcCSE.setStepPoint realGeom realArc
              ⟨⟨0, ⟨0, 0⟩, ⟨1, 0⟩, ⟨0, 2⟩, ⟨⟨0, 0⟩, 1, 0, 0⟩⟩, 2⟩ 0 ⟨3, 0⟩) 0 ⟨3, 0⟩
          = MgCmdArcCSE.setStepPoint realGeom realArc
              ⟨⟨0, ⟨0, 0⟩, ⟨1, 0⟩, ⟨0, 2⟩, ⟨⟨0, 0⟩, 1, 0, 0⟩⟩, 2⟩ 0 ⟨3, 0⟩ :=
  ⟨realGeom_rulerLaws, realArc_centerSettersOfArgs, realArc_offsetTranslates,
    by simp,
    setStepPointCSE_idempotent realGeom realArc realGeom_rulerLaws realArc_centerSettersOfArgs
      realArc_offsetTranslates _ 0 _ (by simp)⟩

/-- C7: three-point command. For every state and point `p`: `setStepPoint(0, p)`
sets only slot 0 and leaves the arc as it was; `setStepPoint(1, p)` sets slots 1
and 2 to `p`, keeps slot 0 and sets the arc by `setStartMidEnd(slot0, p, p)`;
`setStepPoint(2, p)` sets only slot 2 and sets the arc by
`setStartMidEnd(slot0, slot1, p)`. Hence after the steps 0, 1, 2 with the points
`a`, `b`, `d` the slots are `(a, b, d)` and the arc is the one the last call
`setStartMidEnd(a, b, d)` gives. -/
theorem setStepPoint3P_semantics {R Arc : Type} (A : MgArcOps R Arc) (c : MgCmdArc3P R Arc)
    (p a b d : Point2d R) :
    MgCmdArc3P.setStepPoint A c 0 p = { c with points0 := p }
      ∧ MgCmdArc3P.setStepPoint A c 1 p
          = { c with points1 := p, points2 := p, arc := A.setStartMidEnd c.arc c.points0 p p }
      ∧ MgCmdArc3P.setStepPoint A c 2 p
          = { c with points2 := p, arc := A.setStartMidEnd c.arc c.points0 c.points1 p }
      ∧ MgCmdArc3P.setStepPoint A
            (MgCmdArc3P.setStepPoint A (MgCmdArc3P.setStepPoint A c 0 a) 1 b) 2 d
          = { m_step := c.m_step, points0 := a, points1 := b, points2 := d,
              arc := A.setStartMidEnd (A.setStartMidEnd c.arc a b b) a b d } := by
  refine ⟨?_, ?_, ?_, ?_⟩ <;> simp [MgCmdArc3P.setStepPoint]

/-- C8: tangent command. For every state and point `p`, `setStepPoint(2, p)`
changes only slot 2 (to `p`) and sets the arc by `setTanStartEnd` with start
slot 1 and tangent vector `slot1 - slot0`; `setStepPoint(1, s)` uses the tangent
vector `s - slot0`. So after the step-1 update at `s` and any number of step-2
updates (`qs`, then `q`) slots 0 and 1 are still `slot0` and `s`, slot 2 is the
last point `q`, and the last arc was set with the same tangent `s - slot0` and
the same start `s`: only the end moves. -/
theorem setStepPointTan_tangent_invariant {R Arc : Type} [Sub R] (A : MgArcOps R Arc)
    (c : MgCmdArc3P R Arc) (p s q : Point2d R) (qs : List (Point2d R)) :
    MgCmdArcTan.setStepPoint A c 2 p
        = { c with points2 := p,
                   arc := A.setTanStartEnd c.arc (c.points1 - c.points0) c.points1 p }
      ∧ MgCmdArcTan.setStepPoint A c 1 s
        = { c with points1 := s, points2 := s,
                   arc := A.setTanStartEnd c.arc (s - c.points0) s s }
      ∧ tanStep2Updates A (MgCmdArcTan.setStepPoint A c 1 s) (qs ++ [q])
        = { m_step := c.m_step, points0 := c.points0, points1 := s, points2 := q,
            arc := A.setTanStartEnd
              (tanStep2Updates A (MgCmdArcTan.setStepPoint A c 1 s) qs).arc (s - c.points0) s q } := by
  refine ⟨?_, ?_, ?_⟩
  · simp [MgCmdArcTan.setStepPoint]
  · simp [MgCmdArcTan.setStepPoint]
  · have h := tanStep2Updates_frame A qs (MgCmdArcTan.setStepPoint A c 1 s)
    have h1 : (MgCmdArcTan.setStepPoint A c 1 s).points0 = c.points0 := by
      simp [MgCmdArcTan.setStepPoint]
    have h2 : (MgCmdArcTan.setStepPoint A c 1 s).points1 = s := by
      simp [MgCmdArcTan.setStepPoint]
    have h3 : (MgCmdArcTan.setStepPoint A c 1 s).m_step = c.m_step := by
      simp [MgCmdArcTan.setStepPoint]
    rw [tanStep2Updates_append]
    generalize tanStep2Updates A (MgCmdArcTan.setStepPoint A c 1 s) qs = st at h ⊢
    rw [h1, h2, h3] at h
    obtain ⟨e0, e1, e2⟩ := h
    simp [MgCmdArcTan.setStepPoint, e0, e1, e2]

/-- C9: centre-start-end command, step 2. When `setCenterRadius` stores its
arguments, then for every state and point `p`, after `setStepPoint(2, p)` the
arc has the centre, radius and start angle of the arc given by
`setCenterStartEnd(slot0, slot1, p)`, its sweep is that arc's sweep rounded to
`_decimal` decimal places of degrees, slot 2 is the end point of this rounded
arc, and slots 0 and 1 are unchanged. -/
theorem setStepPointCSE_step2 {R Arc : Type} [LinearOrderedField R] [FloorRing R]
    (G : MgGeom R) (A : MgArcOps R Arc) (hA : A.CenterRadiusStored) (c : MgCmdArcCSE R Arc)
    (p : Point2d R) :
    A.getCenter (MgCmdArcCSE.setStepPoint G A c 2 p).arc
        = A.getCenter (A.setCenterStartEnd3 c.arc c.points0 c.points1 p)
      ∧ A.getRadius (MgCmdArcCSE.setStepPoint G A c 2 p).arc
        = A.getRadius (A.setCenterStartEnd3 c.arc c.points0 c.points1 p)
      ∧ A.getStartAngle (MgCmdArcCSE.setStepPoint G A c 2 p).arc
        = A.getStartAngle (A.setCenterStartEnd3 c.arc c.points0 c.points1 p)
      ∧ A.getSweepAngle (MgCmdArcCSE.setStepPoint G A c 2 p).arc
        = roundReal (A.getSweepAngle (A.setCenterStartEnd3 c.arc c.points0 c.points1 p) * G.M_R2D)
            c.decimal * G.M_D2R
      ∧ (MgCmdArcCSE.setStepPoint G A c 2 p).points2
        = A.getEndPoint (MgCmdArcCSE.setStepPoint G A c 2 p).arc
      ∧ (MgCmdArcCSE.setStepPoint G A c 2 p).points0 = c.points0
      ∧ (MgCmdArcCSE.setStepPoint G A c 2 p).points1 = c.points1 := by
  have h := hA (A.setCenterStartEnd3 c.arc c.points0 c.points1 p)
    (A.getCenter (A.setCenterStartEnd3 c.arc c.points0 c.points1 p))
    (A.getRadius (A.setCenterStartEnd3 c.arc c.points0 c.points1 p))
    (A.getStartAngle (A.setCenterStartEnd3 c.arc c.points0 c.points1 p))
    (roundReal (A.getSweepAngle (A.setCenterStartEnd3 c.arc c.points0 c.points1 p) * G.M_R2D)
      c.decimal * G.M_D2R)
  simp only [MgCmdArcCSE.setStepPoint]
  norm_num
  exact h

/-- C9 (witness): the end-to-end scenario of the spec. With precision 2, centre
`(0,0)`, start `(10,0)` and an end point at the raw sweep 89.996 degrees, the
stored sweep is 90 degrees, the arc keeps centre `(0,0)`, radius 10 and start
angle 0, and slot 2 is `(0,10)`, not the raw end point. -/
theorem setStepPointCSE_step2_witness :
    realArc.CenterRadiusStored
      ∧ realArc.getSweepAngle
            (realArc.setCenterStartEnd3 scenarioCmd.arc scenarioCmd.points0 scenarioCmd.points1
              scenarioEnd) * realGeom.M_R2D = 89.996
      ∧ realArc.getSweepAngle (MgCmdArcCSE.setStepPoint realGeom realArc scenarioCmd 2 scenarioEnd).arc
          * realGeom.M_R2D = 90
      ∧ realArc.getCenter (MgCmdArcCSE.setStepPoint realGeom realArc scenarioCmd 2 scenarioEnd).arc
          = ⟨0, 0⟩
      ∧ realArc.getRadius (MgCmdArcCSE.setStepPoint realGeom realArc scenarioCmd 2 scenarioEnd).arc
          = 10
      ∧ realArc.getStartAngle (MgCmdArcCSE.setStepPoint realGeom realArc scenarioCmd 2 scenarioEnd).arc
          = 0
      ∧ (MgCmdArcCSE.setStepPoint realGeom realArc scenarioCmd 2 scenarioEnd).points2 = ⟨0, 10⟩
      ∧ (MgCmdArcCSE.setStepPoint realGeom realArc scenarioCmd 2 scenarioEnd).points0 = ⟨0, 0⟩
      ∧ (MgCmdArcCSE.setStepPoint realGeom realArc scenarioCmd 2 scenarioEnd).points1 = ⟨10, 0⟩ := by
  obtain ⟨hc, hr, hsa, hsw, hp2, hp0, hp1⟩ :=
    setStepPointCSE_step2 realGeom realArc realArc_centerRadiusStored scenarioCmd scenarioEnd
  have hpi : Real.pi ≠ 0 := Real.pi_ne_zero
  have hraw := scenario_raw_sweep scenarioCmd.arc
  have hdeg : (89.996 * (Real.pi / 180)) * realGeom.M_R2D = 89.996 := by
    simp only [realGeom]
    field_simp
  have hsw2 : realArc.getSweepAngle
      (MgCmdArcCSE.setStepPoint realGeom realArc scenarioCmd 2 scenarioEnd).arc
        = Real.pi / 2 := by
    rw [hsw]
    show roundReal (realArc.getSweepAngle (realArc.setCenterStartEnd3 scenarioCmd.arc ⟨0, 0⟩ ⟨10, 0⟩
      scenarioEnd) * realGeom.M_R2D) 2 * realGeom.M_D2R = _
    rw [hraw, hdeg, roundReal_example]
    simp only [realGeom]
    ring
  have hs0 : angle2 ((⟨10, 0⟩ : Point2d ℝ) - (⟨0, 0⟩ : Point2d ℝ)) = 0 := by
    rw [Point2d.sub_def]
    simp only [sub_zero]
    exact angle2_pos_x_axis 10 (by norm_num)
  have hrad : (⟨0, 0⟩ : Point2d ℝ).distanceTo realGeom ⟨10, 0⟩ = 10 := by
    simp only [Point2d.distanceTo, realGeom]
    rw [show ((0 : ℝ) - 10) * (0 - 10) + (0 - 0) * (0 - 0) = 10 ^ 2 by norm_num]
    exact Real.sqrt_sq (by norm_num)
  have hc2 : realArc.getCenter
      (MgCmdArcCSE.setStepPoint realGeom realArc scenarioCmd 2 scenarioEnd).arc = ⟨0, 0⟩ := by
    rw [hc]; rfl
  have hr2 : realArc.getRadius
      (MgCmdArcCSE.setStepPoint realGeom realArc scenarioCmd 2 scenarioEnd).arc = 10 := by
    rw [hr]; exact hrad
  have hsa2 : realArc.getStartAngle
      (MgCmdArcCSE.setStepPoint realGeom realArc scenarioCmd 2 scenarioEnd).arc = 0 := by
    rw [hsa]; exact hs0
  refine ⟨realArc_centerRadiusStored, ?_, ?_, hc2, hr2, hsa2, ?_, hp0, hp1⟩
  · show realArc.getSweepAngle (realArc.setCenterStartEnd3 scenarioCmd.arc ⟨0, 0⟩ ⟨10, 0⟩
      scenarioEnd) * realGeom.M_R2D = _
    rw [hraw, hdeg]
  · rw [hsw2]
    simp only [realGeom]
    field_simp
    ring
  · rw [hp2]
    have e : ∀ a : ArcModel ℝ, realArc.getEndPoint a
        = ⟨(realArc.getCenter a).x
            + realArc.getRadius a * Real.cos (realArc.getStartAngle a + realArc.getSweepAngle a),
          (realArc.getCenter a).y
            + realArc.getRadius a * Real.sin (realArc.getStartAngle a + realArc.getSweepAngle a)⟩ :=
      fun _ => rfl
    rw [e, hc2, hr2, hsa2, hsw2]
    simp

/-- C20: `MgCmdArcCSE::click` never commits a step: for every state and every
snapped point it returns true, leaves the step counter, the arc and the
rounding option as they were (only the three captured points are written), in
every step and whether or not slot 1 equals slot 2. -/
theorem click_no_commit {R Arc : Type} [Add R] [Sub R] (c : MgCmdArcCSE R Arc) (s : Point2d R) :
    (MgCmdArcCSE.click c s).1 = true
      ∧ (MgCmdArcCSE.click c s).2.m_step = c.m_step
      ∧ (MgCmdArcCSE.click c s).2.arc = c.arc
      ∧ (MgCmdArcCSE.click c s).2.decimal = c.decimal
      ∧ (MgCmdArcCSE.click c s).2
          = { c with points0 := (MgCmdArcCSE.click c s).2.points0,
                     points1 := (MgCmdArcCSE.click c s).2.points1,
                     points2 := (MgCmdArcCSE.click c s).2.points2 } :=
  ⟨rfl, rfl, rfl, rfl, rfl⟩

/-- C12: `initialize` of the three-point command and of the centre-start-end
command sets the three captured points to the origin for every prior state and
whatever the base `_initialize` does and returns, and returns exactly the flag
the base `_initialize` returns. -/
theorem initialize_resets_points {R Arc : Type} [Zero R]
    (baseInitialize : Int → Arc → Bool × Int × Arc) (b : MgCmdArc3P R Arc)
    (c : MgCmdArcCSE R Arc) (s : Option (String → Int → Int)) :
    (( MgCmdArc3P.initialize baseInitialize b).2.points0 = ⟨0, 0⟩
        ∧ ( MgCmdArc3P.initialize baseInitialize b).2.points1 = ⟨0, 0⟩
        ∧ ( MgCmdArc3P.initialize baseInitialize b).2.points2 = ⟨0, 0⟩
        ∧ ( MgCmdArc3P.initialize baseInitialize b).1 = (baseInitialize b.m_step b.arc).1)
      ∧ (( MgCmdArcCSE.initialize baseInitialize c s).2.points0 = ⟨0, 0⟩
        ∧ ( MgCmdArcCSE.initialize baseInitialize c s).2.points1 = ⟨0, 0⟩
        ∧ ( MgCmdArcCSE.initialize baseInitialize c s).2.points2 = ⟨0, 0⟩
        ∧ ( MgCmdArcCSE.initialize baseInitialize c s).1 = (baseInitialize c.m_step c.arc).1) := by
  refine ⟨⟨rfl, rfl, rfl, rfl⟩, ?_⟩
  cases s <;> exact ⟨rfl, rfl, rfl, rfl⟩

/-- C11: in each of the three commands, for every state and point `p`, after
`setStepPoint(1, p)` slot 1 and slot 2 both equal `p` and slot 0 is unchanged; in
the centre-start-end command the arc is then the one set by the two-argument
call `setCenterStartEnd(slot0, p)`, which (when that call gives centre, sweep 0
and end = start) has the centre slot 0, sweep 0 and the end point `p`. -/
theorem setStepPoint_step1 {R Arc : Type} [LinearOrderedField R] [FloorRing R] (G : MgGeom R)
    (A : MgArcOps R Arc) (hZ : A.CenterStartZeroSweep) (b : MgCmdArc3P R Arc)
    (c : MgCmdArcCSE R Arc) (p : Point2d R) :
    ((MgCmdArc3P.setStepPoint A b 1 p).points0 = b.points0
        ∧ (MgCmdArc3P.setStepPoint A b 1 p).points1 = p
        ∧ (MgCmdArc3P.setStepPoint A b 1 p).points2 = p)
      ∧ ((MgCmdArcTan.setStepPoint A b 1 p).points0 = b.points0
        ∧ (MgCmdArcTan.setStepPoint A b 1 p).points1 = p
        ∧ (MgCmdArcTan.setStepPoint A b 1 p).points2 = p)
      ∧ ((MgCmdArcCSE.setStepPoint G A c 1 p).points0 = c.points0
        ∧ (MgCmdArcCSE.setStepPoint G A c 1 p).points1 = p
        ∧ (MgCmdArcCSE.setStepPoint G A c 1 p).points2 = p
        ∧ (MgCmdArcCSE.setStepPoint G A c 1 p).arc = A.setCenterStartEnd2 c.arc c.points0 p
        ∧ A.getCenter (MgCmdArcCSE.setStepPoint G A c 1 p).arc = c.points0
        ∧ A.getSweepAngle (MgCmdArcCSE.setStepPoint G A c 1 p).arc = 0
        ∧ A.getEndPoint (MgCmdArcCSE.setStepPoint G A c 1 p).arc = p) := by
  have e : (MgCmdArcCSE.setStepPoint G A c 1 p).arc = A.setCenterStartEnd2 c.arc c.points0 p := by
    simp [MgCmdArcCSE.setStepPoint]
  refine ⟨?_, ?_, ?_⟩
  · simp [MgCmdArc3P.setStepPoint]
  · simp [MgCmdArcTan.setStepPoint]
  · rw [e]
    obtain ⟨h1, h2, h3⟩ := hZ c.arc c.points0 p
    refine ⟨?_, ?_, ?_, rfl, h1, h2, h3⟩ <;> simp [MgCmdArcCSE.setStepPoint]

/-- C11 (witness): step 1 at the point `(3,4)` on the arc model over `ℝ`. -/
theorem setStepPoint_step1_witness :
    realArc.CenterStartZeroSweep
      ∧ (MgCmdArcCSE.setStepPoint realGeom realArc
          ⟨⟨1, ⟨1, 1⟩, ⟨0, 0⟩, ⟨0, 0⟩, ⟨⟨1, 1⟩, 0, 0, 0⟩⟩, 2⟩ 1 ⟨3, 4⟩).points2 = ⟨3, 4⟩
      ∧ realArc.getEndPoint (MgCmdArcCSE.setStepPoint realGeom realArc
          ⟨⟨1, ⟨1, 1⟩, ⟨0, 0⟩, ⟨0, 0⟩, ⟨⟨1, 1⟩, 0, 0, 0⟩⟩, 2⟩ 1 ⟨3, 4⟩).arc = ⟨3, 4⟩ :=
  ⟨realArc_centerStartZeroSweep,
    (setStepPoint_step1 realGeom realArc realArc_centerStartZeroSweep
      ⟨1, ⟨1, 1⟩, ⟨0, 0⟩, ⟨0, 0⟩, ⟨⟨1, 1⟩, 0, 0, 0⟩⟩ _ _).2.2.2.2.1,
    (setStepPoint_step1 realGeom realArc realArc_centerStartZeroSweep
      ⟨1, ⟨1, 1⟩, ⟨0, 0⟩, ⟨0, 0⟩, ⟨⟨1, 1⟩, 0, 0, 0⟩⟩ _ _).2.2.2.2.2.2.2.2⟩

/-- C15: centre-start-end command, start-direction branch. For every state
with slot 1 ≠ slot 2 and every point `p`, `setStepPoint(0, p)` takes
`r = |slot0 - slot2|`, sets slot 1 to the ruler-point `q` at distance `r` from
slot 0 towards `p`, replaces slot 2 by the opposite ruler-point (distance `-r`)
exactly when `q` equals the old slot 2, leaves slot 0 unchanged, sets the arc by
the two-argument call `setCenterStartEnd(slot0, q)` (centre slot 0, sweep 0) and
sets the step counter to 2; when `r > 0` (in particular when also `p ≠ slot0`),
afterwards slot 1 ≠ slot 2 and both lie at distance `r` from slot 0. -/
theorem setStepPointCSE_start_direction {R Arc : Type} [LinearOrderedField R] [FloorRing R]
    (G : MgGeom R) (A : MgArcOps R Arc) (hG : G.RulerLaws) (hZ : A.CenterStartZeroSweep)
    (c : MgCmdArcCSE R Arc) (p : Point2d R) (h12 : c.points1 ≠ c.points2)
    (r : R) (hr : r = c.points0.distanceTo G c.points2)
    (q : Point2d R) (hq : q = G.rulerPoint c.points0 p r 0) :
    (MgCmdArcCSE.setStepPoint G A c 0 p).points1 = q
      ∧ (MgCmdArcCSE.setStepPoint G A c 0 p).points2
          = (if q = c.points2 then G.rulerPoint c.points0 p (-r) 0 else c.points2)
      ∧ (MgCmdArcCSE.setStepPoint G A c 0 p).points0 = c.points0
      ∧ (MgCmdArcCSE.setStepPoint G A c 0 p).arc = A.setCenterStartEnd2 c.arc c.points0 q
      ∧ A.getCenter (MgCmdArcCSE.setStepPoint G A c 0 p).arc = c.points0
      ∧ A.getSweepAngle (MgCmdArcCSE.setStepPoint G A c 0 p).arc = 0
      ∧ (MgCmdArcCSE.setStepPoint G A c 0 p).m_step = 2
      ∧ (0 < r →
          (MgCmdArcCSE.setStepPoint G A c 0 p).points1 ≠ (MgCmdArcCSE.setStepPoint G A c 0 p).points2
            ∧ (MgCmdArcCSE.setStepPoint G A c 0 p).points0.distanceTo G
                (MgCmdArcCSE.setStepPoint G A c 0 p).points1 = r
            ∧ (MgCmdArcCSE.setStepPoint G A c 0 p).points0.distanceTo G
                (MgCmdArcCSE.setStepPoint G A c 0 p).points2 = r) := by
  subst hr hq
  obtain ⟨hc, hs, _⟩ := hZ c.arc c.points0
    (G.rulerPoint c.points0 p (c.points0.distanceTo G c.points2) 0)
  have hd := hG.2.2.1 c.points0 p
  by_cases hq : G.rulerPoint c.points0 p (c.points0.distanceTo G c.points2) 0 = c.points2
  · rw [MgCmdArcCSE.setStepPoint_start_nudged G A c p h12 hq]
    refine ⟨rfl, by simp [hq], rfl, rfl, hc, hs, rfl, fun hpos => ?_⟩
    refine ⟨Ne.symm (hG.2.2.2 c.points0 p _ (ne_of_gt hpos)), ?_, ?_⟩
    · show c.points0.distanceTo G _ = _
      rw [hd, abs_of_pos hpos]
    · show c.points0.distanceTo G _ = _
      rw [hd, abs_neg, abs_of_pos hpos]
  · rw [MgCmdArcCSE.setStepPoint_start_kept G A c p h12 hq]
    refine ⟨rfl, by simp [hq], rfl, rfl, hc, hs, rfl, fun hpos => ?_⟩
    refine ⟨hq, ?_, rfl⟩
    show c.points0.distanceTo G _ = _
    rw [hd, abs_of_pos hpos]

/-- C15 (witness): centre `(0,0)`, start `(1,0)`, end `(0,2)` and the point
`(3,0)` on the arc model over `ℝ`: the radius is positive, the step counter
becomes 2 and the new slots 1 and 2 differ. -/
theorem setStepPointCSE_start_direction_witness :
    realGeom.RulerLaws ∧ realArc.CenterStartZeroSweep
      ∧ (⟨1, 0⟩ : Point2d ℝ) ≠ ⟨0, 2⟩
      ∧ 0 < (⟨0, 0⟩ : Point2d ℝ).distanceTo realGeom ⟨0, 2⟩
      ∧ (MgCmdArcCSE.setStepPoint realGeom realArc
          ⟨⟨0, ⟨0, 0⟩, ⟨1, 0⟩, ⟨0, 2⟩, ⟨⟨0, 0⟩, 2, 0, 0⟩⟩, 2⟩ 0 ⟨3, 0⟩).m_step = 2
      ∧ (MgCmdArcCSE.setStepPoint realGeom realArc
          ⟨⟨0, ⟨0, 0⟩, ⟨1, 0⟩, ⟨0, 2⟩, ⟨⟨0, 0⟩, 2, 0, 0⟩⟩, 2⟩ 0 ⟨3, 0⟩).points1
        ≠ (MgCmdArcCSE.setStepPoint realGeom realArc
          ⟨⟨0, ⟨0, 0⟩, ⟨1, 0⟩, ⟨0, 2⟩, ⟨⟨0, 0⟩, 2, 0, 0⟩⟩, 2⟩ 0 ⟨3, 0⟩).points2 := by
  have h12 : (⟨1, 0⟩ : Point2d ℝ) ≠ ⟨0, 2⟩ := by simp
  have hpos : 0 < (⟨0, 0⟩ : Point2d ℝ).distanceTo realGeom ⟨0, 2⟩ := by
    simp only [Point2d.distanceTo, realGeom]
    apply Real.sqrt_pos.mpr
    norm_num
  have h := setStepPointCSE_start_direction realGeom realArc realGeom_rulerLaws
    realArc_centerStartZeroSweep ⟨⟨0, ⟨0, 0⟩, ⟨1, 0⟩, ⟨0, 2⟩, ⟨⟨0, 0⟩, 2, 0, 0⟩⟩, 2⟩ ⟨3, 0⟩ h12
    _ rfl _ rfl
  exact ⟨realGeom_rulerLaws, realArc_centerStartZeroSweep, h12, hpos, h.2.2.2.2.2.2.1,
    (h.2.2.2.2.2.2.2 hpos).1⟩

/-- C16: centre-start-end command, re-centre branch. When `offset` translates
the arc and keeps its shape, then for every state with slot 1 = slot 2 and every
point `p`, `setStepPoint(0, p)` sets slot 0 to `p`, leaves slots 1 and 2 and the
step counter unchanged and offsets the arc by `p - old arc centre`, so that
afterwards the arc's centre is `p` and its radius, start angle and sweep are
what they were before. -/
theorem setStepPointCSE_recentre {R Arc : Type} [LinearOrderedField R] [FloorRing R]
    (G : MgGeom R) (A : MgArcOps R Arc) (hO : A.OffsetTranslates) (hK : A.OffsetKeepsShape)
    (c : MgCmdArcCSE R Arc) (p : Point2d R) (h12 : c.points1 = c.points2) :
    (MgCmdArcCSE.setStepPoint G A c 0 p).points0 = p
      ∧ (MgCmdArcCSE.setStepPoint G A c 0 p).points1 = c.points1
      ∧ (MgCmdArcCSE.setStepPoint G A c 0 p).points2 = c.points2
      ∧ (MgCmdArcCSE.setStepPoint G A c 0 p).m_step = c.m_step
      ∧ (MgCmdArcCSE.setStepPoint G A c 0 p).arc = A.offset c.arc (p - A.getCenter c.arc) (-1)
      ∧ A.getCenter (MgCmdArcCSE.setStepPoint G A c 0 p).arc = p
      ∧ A.getRadius (MgCmdArcCSE.setStepPoint G A c 0 p).arc = A.getRadius c.arc
      ∧ A.getStartAngle (MgCmdArcCSE.setStepPoint G A c 0 p).arc = A.getStartAngle c.arc
      ∧ A.getSweepAngle (MgCmdArcCSE.setStepPoint G A c 0 p).arc = A.getSweepAngle c.arc := by
  rw [MgCmdArcCSE.setStepPoint_recentre G A c p h12]
  obtain ⟨k1, k2, k3⟩ := hK c.arc (p - A.getCenter c.arc) (-1)
  refine ⟨rfl, rfl, rfl, rfl, rfl, ?_, k1, k2, k3⟩
  show A.getCenter (A.offset c.arc (p - A.getCenter c.arc) (-1)) = p
  rw [hO.1, Point2d.sub_def, Point2d.add_def]
  cases p
  simp

/-- C16 (witness): re-centring an arc of radius 5 at `(1,1)` to the point
`(3,4)` on the arc model over `ℝ`. -/
theorem setStepPointCSE_recentre_witness :
    realArc.OffsetTranslates ∧ realArc.OffsetKeepsShape
      ∧ (⟨6, 1⟩ : Point2d ℝ) = ⟨6, 1⟩
      ∧ realArc.getCenter (MgCmdArcCSE.setStepPoint realGeom realArc
          ⟨⟨0, ⟨1, 1⟩, ⟨6, 1⟩, ⟨6, 1⟩, ⟨⟨1, 1⟩, 5, 0, 0⟩⟩, 2⟩ 0 ⟨3, 4⟩).arc = ⟨3, 4⟩
      ∧ realArc.getRadius (MgCmdArcCSE.setStepPoint realGeom realArc
          ⟨⟨0, ⟨1, 1⟩, ⟨6, 1⟩, ⟨6, 1⟩, ⟨⟨1, 1⟩, 5, 0, 0⟩⟩, 2⟩ 0 ⟨3, 4⟩).arc = 5 := by
  have h := setStepPointCSE_recentre realGeom realArc realArc_offsetTranslates
    realArc_offsetKeepsShape ⟨⟨0, ⟨1, 1⟩, ⟨6, 1⟩, ⟨6, 1⟩, ⟨⟨1, 1⟩, 5, 0, 0⟩⟩, 2⟩ ⟨3, 4⟩ rfl
  exact ⟨realArc_offsetTranslates, realArc_offsetKeepsShape, rfl, h.2.2.2.2.2.1,
    h.2.2.2.2.2.2.1⟩

/-- C13: the default-constructed `GiContext`. Its `getLineWidth()` is `-2`, not
the `-3` of a 3-pixel line; `getLineStyle()` is `kSolidLine`, the line colour has
red = green = blue = 0 (black) and `hasFillColor()` is false. -/
theorem default_context {R : Type} [LinearOrderedField R] [FloorRing R] :
    (GiContext.ctor : GiContext R).getLineWidth = -2
      ∧ (GiContext.ctor : GiContext R).getLineWidth ≠ -3
      ∧ (GiContext.ctor : GiContext R).getLineStyle = GiContext.kSolidLine
      ∧ (GiContext.ctor : GiContext R).getLineColor.r = 0
      ∧ (GiContext.ctor : GiContext R).getLineColor.g = 0
      ∧ (GiContext.ctor : GiContext R).getLineColor.b = 0
      ∧ (GiContext.ctor : GiContext R).hasFillColor = false := by
  have hw : (GiContext.ctor : GiContext R).getLineWidth = -2 := GiContext.ctor_getLineWidth
  refine ⟨hw, ?_, rfl, rfl, rfl, rfl, rfl⟩
  rw [hw]
  norm_num

/-- C14 (counterexample): a source whose line width is NaN. After `operator=`
(and after `copy` with the default mask) every member of `dst` is that of `src`,
and `dst.equals(src)` is false, because the width does not compare equal to
itself. -/
theorem copy_nan_not_equals :
    ((⟨0, FloatValue.num 1, ⟨0, 0, 0, 255⟩, ⟨0, 0, 0, 0⟩, false⟩ : GiContext (FloatValue ℚ)).assign
          false ⟨2, FloatValue.nan, ⟨9, 9, 9, 255⟩, ⟨0, 0, 0, 0⟩, true⟩).equals
        ⟨2, FloatValue.nan, ⟨9, 9, 9, 255⟩, ⟨0, 0, 0, 0⟩, true⟩ = false
      ∧ ((⟨0, FloatValue.num 1, ⟨0, 0, 0, 255⟩, ⟨0, 0, 0, 0⟩, false⟩ : GiContext (FloatValue ℚ)).copy
          false ⟨2, FloatValue.nan, ⟨9, 9, 9, 255⟩, ⟨0, 0, 0, 0⟩, true⟩ (-1)).equals
        ⟨2, FloatValue.nan, ⟨9, 9, 9, 255⟩, ⟨0, 0, 0, 0⟩, true⟩ = false := by
  constructor
  · show (GiContext.copy _ false _ (-1)).equals _ = false
    rw [GiContext.copy_all, GiContext.equals_self]
    rfl
  · rw [GiContext.copy_all, GiContext.equals_self]
    rfl

/-- C14 (amended): `GiContext::copy(src, mask)` from a distinct source selects by
the bits of `mask`: line RGB from `src` iff `mask & 0x01`, line alpha iff
`mask & 0x02`, line width and autoScale iff `mask & 0x04`, line style iff
`mask & 0x08`, fill RGB iff `mask & 0x10`, fill alpha iff `mask & 0x20`, and an
attribute that is not selected keeps the value of `dst`. So `copy` with
`kCopyNone` changes nothing, and after `copy` with the default mask `-1`, and
after `operator=`, `dst.equals(src)` is true exactly when the line width of
`src` compares equal to itself, that is when it is not NaN. -/
theorem copy_selects {R : Type} [BEq R] (dst src : GiContext R) (mask : Int) :
    ((dst.copy false src mask).m_lineColor.r
          = (if Int.land mask 0x01 ≠ 0 then src.m_lineColor.r else dst.m_lineColor.r)
        ∧ (dst.copy false src mask).m_lineColor.g
          = (if Int.land mask 0x01 ≠ 0 then src.m_lineColor.g else dst.m_lineColor.g)
        ∧ (dst.copy false src mask).m_lineColor.b
          = (if Int.land mask 0x01 ≠ 0 then src.m_lineColor.b else dst.m_lineColor.b))
      ∧ (dst.copy false src mask).m_lineColor.a
          = (if Int.land mask 0x02 ≠ 0 then src.m_lineColor.a else dst.m_lineColor.a)
      ∧ ((dst.copy false src mask).m_lineWidth
          = (if Int.land mask 0x04 ≠ 0 then src.m_lineWidth else dst.m_lineWidth)
        ∧ (dst.copy false src mask).m_autoScale
          = (if Int.land mask 0x04 ≠ 0 then src.m_autoScale else dst.m_autoScale))
      ∧ (dst.copy false src mask).m_lineStyle
          = (if Int.land mask 0x08 ≠ 0 then src.m_lineStyle else dst.m_lineStyle)
      ∧ ((dst.copy false src mask).m_fillColor.r
          = (if Int.land mask 0x10 ≠ 0 then src.m_fillColor.r else dst.m_fillColor.r)
        ∧ (dst.copy false src mask).m_fillColor.g
          = (if Int.land mask 0x10 ≠ 0 then src.m_fillColor.g else dst.m_fillColor.g)
        ∧ (dst.copy false src mask).m_fillColor.b
          = (if Int.land mask 0x10 ≠ 0 then src.m_fillColor.b else dst.m_fillColor.b))
      ∧ (dst.copy false src mask).m_fillColor.a
          = (if Int.land mask 0x20 ≠ 0 then src.m_fillColor.a else dst.m_fillColor.a)
      ∧ dst.copy false src GiContext.kCopyNone = dst
      ∧ (dst.copy false src (-1)).equals src = (src.m_lineWidth == src.m_lineWidth)
      ∧ (dst.assign false src).equals src = (src.m_lineWidth == src.m_lineWidth) := by
  refine ⟨⟨?_, ?_, ?_⟩, ?_, ⟨?_, ?_⟩, ?_, ⟨?_, ?_, ?_⟩, ?_, ?_, ?_, ?_⟩
  · rw [GiContext.copy_eq]; rfl
  · rw [GiContext.copy_eq]; rfl
  · rw [GiContext.copy_eq]; rfl
  · rw [GiContext.copy_eq]; rfl
  · rw [GiContext.copy_eq]; rfl
  · rw [GiContext.copy_eq]; rfl
  · rw [GiContext.copy_eq]; rfl
  · rw [GiContext.copy_eq]; rfl
  · rw [GiContext.copy_eq]; rfl
  · rw [GiContext.copy_eq]; rfl
  · rw [GiContext.copy_eq]; rfl
  · have h1 : Int.land GiContext.kCopyNone GiContext.kLineRGB = 0 := rfl
    have h2 : Int.land GiContext.kCopyNone GiContext.kLineAlpha = 0 := rfl
    have h3 : Int.land GiContext.kCopyNone GiContext.kLineWidth = 0 := rfl
    have h4 : Int.land GiContext.kCopyNone GiContext.kLineStyle = 0 := rfl
    have h5 : Int.land GiContext.kCopyNone GiContext.kFillRGB = 0 := rfl
    have h6 : Int.land GiContext.kCopyNone GiContext.kFillAlpha = 0 := rfl
    rw [GiContext.copy_eq, h1, h2, h3, h4, h5, h6]
    simp
  · rw [GiContext.copy_all]
    exact GiContext.equals_self src
  · show (dst.copy false src (-1)).equals src = _
    rw [GiContext.copy_all]
    exact GiContext.equals_self src

/-- C19: the extra-width round trip on the default-constructed context (stored
width `-2`, so `|w| < 1e5`): after `setExtraWidth(2)` the stored width is
`-200002` and `getExtraWidth()` returns `200002 / 100000 = 2.00002`, not the
extra width `floor(|2|) = 2` that was set. -/
theorem extra_width_round_trip {R : Type} [LinearOrderedField R] [FloorRing R] :
    |(GiContext.ctor : GiContext R).m_lineWidth| < 100000
      ∧ ((GiContext.ctor : GiContext R).setExtraWidth 2).m_lineWidth = -200002
      ∧ ((GiContext.ctor : GiContext R).setExtraWidth 2).getExtraWidth = 200002 / 100000
      ∧ ((GiContext.ctor : GiContext R).setExtraWidth 2).getExtraWidth ≠ ((⌊|(2 : R)|⌋ : Int) : R) := by
  have hw : ((GiContext.ctor : GiContext R).setExtraWidth 2).m_lineWidth = -200002 := by
    have h0 : ¬ ((GiContext.ctor : GiContext R).m_lineWidth > 0) := by
      simp only [GiContext.ctor]
      norm_num
    simp only [GiContext.setExtraWidth, h0, if_false, GiContext.ctor_getLineWidth, floor_abs_two]
    norm_num
  have he : ((GiContext.ctor : GiContext R).setExtraWidth 2).getExtraWidth = 200002 / 100000 := by
    have h1 : ¬ ((-200002 : R) > 100000) := by norm_num
    have h2 : (-200002 : R) < -100000 := by norm_num
    simp only [GiContext.getExtraWidth, hw, h1, h2, if_false, if_true]
    norm_num
  refine ⟨?_, hw, he, ?_⟩
  · simp only [GiContext.ctor]
    rw [abs_neg, abs_of_pos] <;> norm_num
  · rw [he, floor_abs_two]
    norm_num

/-- C18 (counterexample): with the pointer at `(0, -100)`, the offset
`displayMmToModel(12) = 12` and the window `0 ≤ y ≤ 50`, `drawAngleText` places
the text at `(0, -88)`, below the window. -/
theorem drawAngleText_below_window :
    (MgCommand.drawAngleText realGeom
        ⟨⟨0, -100⟩, true, fun mm => mm, ⟨0, 0, 80, 50⟩, 0, fun name => name⟩ (some 0) 0).2.2
      = [GiCall.drawTextAt GiColor.Red
          (MgCommand.drawAngleText realGeom
            ⟨⟨0, -100⟩, true, fun mm => mm, ⟨0, 0, 80, 50⟩, 0, fun name => name⟩ (some 0) 0).2.1
          ⟨0, -88⟩ (7 / 2)]
      ∧ ¬ ((0 : ℝ) ≤ -88 ∧ (-88 : ℝ) ≤ 50) := by
  constructor
  · simp only [MgCommand.drawAngleText, Point2d.add_def]
    norm_num
  · norm_num

/-- C18 (amended): for every pointer position and window rectangle,
`drawAngleText` places the text at the pointer's x coordinate and at
`y = min(pointer.y + displayMmToModel(12), ymax)`; this `y` is at most `ymax`,
and it is at least `ymin` exactly when `pointer.y + displayMmToModel(12) ≥ ymin`
and `ymin ≤ ymax`. -/
theorem drawAngleText_point {R : Type} [LinearOrderedField R] [FloorRing R] (G : MgGeom R)
    (sender : MgMotion R) (ret angle : R) :
    (MgCommand.drawAngleText G sender (some ret) angle).2.2
        = [GiCall.drawTextAt GiColor.Red (MgCommand.drawAngleText G sender (some ret) angle).2.1
            ⟨sender.pointM.x,
              min (sender.pointM.y + sender.displayMmToModel 12) sender.wndRectM.ymax⟩ (7 / 2)]
      ∧ min (sender.pointM.y + sender.displayMmToModel 12) sender.wndRectM.ymax
          ≤ sender.wndRectM.ymax
      ∧ (sender.wndRectM.ymin
            ≤ min (sender.pointM.y + sender.displayMmToModel 12) sender.wndRectM.ymax
          ↔ sender.wndRectM.ymin ≤ sender.pointM.y + sender.displayMmToModel 12
            ∧ sender.wndRectM.ymin ≤ sender.wndRectM.ymax) := by
  refine ⟨?_, min_le_right _ _, le_min_iff⟩
  simp [MgCommand.drawAngleText, Point2d.add_def]

/-- C17 (counterexample): with centre `(0,0)`, start = end = `(1,0)` (slot 1 =
slot 2) and step 0, `draw` emits the dashed preview circle. -/
theorem drawCSE_circle_without_end :
    (⟨1, 0⟩ : Point2d ℝ) = ⟨1, 0⟩
      ∧ GiCall.drawCircle
          (GiContext.ctorLine (-2) ⟨0, 126, 0, 32⟩ GiContext.kDashLine GiColor.Invalid false)
          ⟨0, 0⟩ ((⟨0, 0⟩ : Point2d ℝ).distanceTo realGeom ⟨1, 0⟩)
        ∈ (MgCmdArcCSE.draw realGeom realArc
            ⟨⟨0, ⟨0, 0⟩, ⟨1, 0⟩, ⟨1, 0⟩, ⟨⟨0, 0⟩, 1, 0, 0⟩⟩, 2⟩
            ⟨⟨0, 0⟩, false, fun mm => mm, ⟨0, 0, 80, 50⟩, 0, fun name => name⟩ 0 ([], true)).1 := by
  refine ⟨rfl, ?_⟩
  simp [MgCmdArcCSE.draw, MgCmdArc3P.draw, MgCmdArc3P.drawArcHandle]

/-- C17 (amended): for every state, the calls of `MgCmdArcCSE::draw` are its own
calls followed by those of the base `MgCommandDraw::draw`; among its own calls
there is a circle drawn with a dashed line exactly when the step counter is 0
and slot 0 ≠ slot 1 (centre and start differ), and such a circle has the centre
slot 0 and the radius `|slot0 - slot1|`. -/
theorem drawCSE_dash_circle {R Arc : Type} [LinearOrderedField R] [FloorRing R] (G : MgGeom R)
    (A : MgArcOps R Arc) (c : MgCmdArcCSE R Arc) (sender : MgMotion R) (textRet : R)
    (base : List (GiCall R) × Bool) :
    (MgCmdArcCSE.draw G A c sender textRet base).1
        = (MgCmdArcCSE.draw G A c sender textRet ([], base.2)).1 ++ base.1
      ∧ ((∃ call ∈ (MgCmdArcCSE.draw G A c sender textRet ([], base.2)).1,
            call.isDashCircle = true)
          ↔ c.m_step = 0 ∧ c.points0 ≠ c.points1)
      ∧ (∀ call ∈ (MgCmdArcCSE.draw G A c sender textRet ([], base.2)).1,
          call.isDashCircle = true →
            call = GiCall.drawCircle
              (GiContext.ctorLine (-2) ⟨0, 126, 0, 32⟩ GiContext.kDashLine GiColor.Invalid false)
              c.points0 (c.points0.distanceTo G c.points1)) := by
  refine ⟨?_, ?_, ?_⟩
  · simp [MgCmdArcCSE.draw, MgCmdArc3P.draw]
  · simp only [MgCmdArcCSE.draw, MgCmdArc3P.draw, MgCmdArc3P.drawArcHandle,
      MgCommand.drawAngleText]
    split_ifs <;>
      simp_all [GiCall.isDashCircle, GiContext.getLineStyle, GiContext.ctorLine,
        GiColor.isInvalid, GiContext.kDashLine, GiContext.kDotLine]
  · simp only [MgCmdArcCSE.draw, MgCmdArc3P.draw, MgCmdArc3P.drawArcHandle,
      MgCommand.drawAngleText]
    split_ifs <;>
      simp_all [GiCall.isDashCircle, GiContext.getLineStyle, GiContext.ctorLine,
        GiColor.isInvalid, GiContext.kDashLine, GiContext.kDotLine]

end VgCore
